import Mathlib

/-!
# LOOS: merge-traj, the DCD writer and the NetCDF coordinates

A shallow embedding of `Tools/merge-traj.cpp` (the merge loop of `main`,
`ToolOptions::postConditions`, `sortNamesByFormat`), of `dcdwriter.cpp`
(`writeF77Line`, `fixStringSize`, `writeHeader`, `writeBox`, `writeFrame`) and of
`AmberNetcdf::coords` from `amber_netcdf.hpp`, followed by theorems about them.

Conventions.
* `uint` values are natural numbers below `2^32`; every `uint` operation that can
  leave that range is reduced modulo `2^32` (`toUInt`).
* `int` values are integers; a `uint` converted to `int` is read in two's complement
  (`toInt`).
* `double` is an abstract type `R`; the few floating point operations the code uses
  are fields of `DoubleOps`.
* Member functions of `AtomicGroup` that are not part of the sources at hand
  (translate, reimage, centroid, ...) are fields of `GroupOps`.
-/

namespace Loos

/-! ## Machine integers -/

/-- Conversion of an integer value to `unsigned int` (reduction modulo `2^32`). -/
def toUInt (i : Int) : Nat := (i % 4294967296).toNat

/-- Conversion of an `unsigned int` value to `int` (two's complement). -/
def toInt (u : Nat) : Int :=
  if u % 4294967296 < 2147483648 then ((u % 4294967296 : Nat) : Int)
  else ((u % 4294967296 : Nat) : Int) - 4294967296

/-! ## Coordinates and groups -/

/-- A `GCoord`: three `double` components. -/
structure GCoord (R : Type) where
  x : R
  y : R
  z : R
deriving DecidableEq

/-- The part of an `AtomicGroup` the code looks at: the coordinates of its atoms in
atom order, whether it carries periodic box information, and the box. -/
structure AtomicGroup (R : Type) where
  atoms : List (GCoord R)
  isPeriodic : Bool
  periodicBox : GCoord R
deriving DecidableEq

/-- Number of atoms, `AtomicGroup::size()`. -/
def AtomicGroup.size {R : Type} (g : AtomicGroup R) : Nat := g.atoms.length

/-- A selection or molecule: a group that shares its atoms with the system, given by
the indices of its atoms in the system. -/
abbrev AtomSel := List Nat

/-- The operations on `double` used by the merge loop and the DCD writer. -/
structure DoubleOps (R : Type) where
  /-- the value `0.0` -/
  zero : R
  /-- the value `1.0` -/
  one : R
  /-- the value `1e20` -/
  huge : R
  /-- unary minus -/
  neg : R → R
  /-- division by `2.0` -/
  half : R → R
  /-- the comparison `a < b` -/
  lt : R → R → Bool

/-- Member functions of `AtomicGroup` used by the merge loop whose code is not part of
the sources at hand.  A selection or molecule shares its atoms with the system, so an
operation on it is a function of the system's current state. -/
structure GroupOps (R : Type) where
  /-- `system.translate(v)` -/
  translate : GCoord R → AtomicGroup R → AtomicGroup R
  /-- `m->reimage()` -/
  reimage : AtomSel → AtomicGroup R → AtomicGroup R
  /-- `m->mergeImage()` -/
  mergeImage : AtomSel → AtomicGroup R → AtomicGroup R
  /-- `m->radius(true)` -/
  radius : AtomSel → AtomicGroup R → R
  /-- `sel.centroid()` -/
  centroid : AtomSel → AtomicGroup R → GCoord R
  /-- `sel[0]->coords()` -/
  firstCoords : AtomSel → AtomicGroup R → GCoord R

/-! ## Frame source and output writer of the merge loop -/

/-- Modelled from the spec: the Frame Source (class `Trajectory`, whose code is not part
of the sources at hand): "a sequential, seekable stream of frames", with `frameCount()`,
`seekFrame(n)` and `readNextFrame() -> bool`.  A frame is the state of the system after
`updateGroupCoords`.  `pos` is the index of the frame the next read returns. -/
structure Trajectory (R : Type) where
  frames : List (AtomicGroup R)
  pos : Nat

/-- Opening a trajectory file, `createTrajectory`: positioned at its first frame. -/
def createTrajectory {R : Type} (file : List (AtomicGroup R)) : Trajectory R :=
  { frames := file, pos := 0 }

/-- Frame count, `Trajectory::nframes()` (a `uint`). -/
def Trajectory.nframes {R : Type} (t : Trajectory R) : Nat := toUInt t.frames.length

/-- Positioning, `Trajectory::seekFrame(n)`: the next read returns frame `n`. -/
def Trajectory.seekFrame {R : Type} (t : Trajectory R) (n : Nat) : Trajectory R :=
  { t with pos := n }

/-- Reading, `Trajectory::readFrame()`: the frame at the current position and the
stream advanced by one, or `none` (the C++ `false`) at the end of the stream. -/
def Trajectory.readFrame {R : Type} (t : Trajectory R) :
    Trajectory R × Option (AtomicGroup R) :=
  match t.frames[t.pos]? with
  | some f => ({ t with pos := t.pos + 1 }, some f)
  | none => (t, none)

/-- Modelled from the spec: the output trajectory of the merge loop (class
`TrajectoryWriter` as obtained from `createOutputTrajectory(name, true)`, whose code is
not part of the sources at hand): the frames durably in the file, pre-existing frames
first. -/
structure TrajectoryWriter (R : Type) where
  frames : List (AtomicGroup R)
deriving DecidableEq

/-- Count of frames in the file, `framesWritten()` (a `uint`). -/
def TrajectoryWriter.framesWritten {R : Type} (w : TrajectoryWriter R) : Nat :=
  toUInt w.frames.length

/-- Appending one frame, `output->writeFrame(system)`. -/
def TrajectoryWriter.writeFrame {R : Type} (w : TrajectoryWriter R) (g : AtomicGroup R) :
    TrajectoryWriter R :=
  { frames := w.frames ++ [g] }

/-! ## The merge loop of `merge-traj.cpp` -/

/-- The global option variables of `merge-traj.cpp` read by the merge loop, together
with the selections and the molecule list computed before the loop. -/
structure MergeEnv where
  center_selection : String
  xy_center_selection : String
  z_center_selection : String
  downsample_rate : Int
  output_traj_downsample : String
  skip_first_frame : Bool
  reimage_by_molecule : Bool
  selection_split : Bool
  center : AtomSel
  xy_center : AtomSel
  z_center : AtomSel
  molecules : List AtomSel

/-- The flag `full_recenter` (lines 366-372). -/
def MergeEnv.full_recenter (e : MergeEnv) : Bool := e.center_selection.length != 0

/-- The flag `xy_recenter` (lines 373-376). -/
def MergeEnv.xy_recenter (e : MergeEnv) : Bool := e.xy_center_selection.length != 0

/-- The flag `z_recenter` (lines 377-380). -/
def MergeEnv.z_recenter (e : MergeEnv) : Bool := e.z_center_selection.length != 0

/-- The flag `do_downsample` (line 385). -/
def MergeEnv.do_downsample (e : MergeEnv) : Bool := decide (e.output_traj_downsample.length > 0)

/-- Half of the smallest box dimension (lines 485-495). -/
def smallestHalf {R : Type} (d : DoubleOps R) (box : GCoord R) : R :=
  let s0 := d.huge
  let s1 := if d.lt box.x s0 then box.x else s0
  let s2 := if d.lt box.y s1 then box.y else s1
  let s3 := if d.lt box.z s2 then box.z else s2
  d.half s3

/-- Negation of a coordinate, the unary minus of `GCoord`. -/
def GCoord.neg {R : Type} (d : DoubleOps R) (c : GCoord R) : GCoord R :=
  { x := d.neg c.x, y := d.neg c.y, z := d.neg c.z }

/-- The default constructed `GCoord`, also the result of `zero()`. -/
def GCoord.origin {R : Type} (d : DoubleOps R) : GCoord R :=
  { x := d.zero, y := d.zero, z := d.zero }

/-- The loop over the molecules calling `reimage()` on each (lines 553-556, 579-582,
610-613). -/
def reimageAll {R : Type} (g : GroupOps R) (molecules : List AtomSel)
    (system : AtomicGroup R) : AtomicGroup R :=
  molecules.foldl (fun s m => g.reimage m s) system

/-- The fix-imaging pass (lines 503-520). -/
def fixImaging {R : Type} (d : DoubleOps R) (g : GroupOps R) (molecules : List AtomSel)
    (smallest : R) (system : AtomicGroup R) : AtomicGroup R :=
  molecules.foldl
    (fun s m =>
      if decide (m.length > 1) && d.lt smallest (g.radius m s) then
        g.reimage m (g.mergeImage m s)
      else s)
    system

/-- The reference point of the selection-is-split pre-pass (lines 533-549). -/
def splitCentroid {R : Type} (d : DoubleOps R) (g : GroupOps R) (e : MergeEnv)
    (system : AtomicGroup R) : GCoord R :=
  let centroid := GCoord.origin d
  if e.full_recenter then g.firstCoords e.center system
  else
    let centroid :=
      if e.xy_recenter then
        { centroid with x := (g.firstCoords e.xy_center system).x,
                        y := (g.firstCoords e.xy_center system).y }
      else centroid
    if e.z_recenter then { centroid with z := (g.firstCoords e.z_center system).z }
    else centroid

/-- The centroid computation of the regular passes (lines 560-576 and 591-607); the
variable `centroid` is zero when the computation starts. -/
def passCentroid {R : Type} (d : DoubleOps R) (g : GroupOps R) (e : MergeEnv)
    (system : AtomicGroup R) : GCoord R :=
  let centroid := GCoord.origin d
  if e.full_recenter then g.centroid e.center system
  else
    let centroid :=
      if e.xy_recenter then { g.centroid e.xy_center system with z := d.zero }
      else centroid
    if e.z_recenter then { centroid with z := (g.centroid e.z_center system).z }
    else centroid

/-- The recentering block (lines 523-624) applied to the system. -/
def recenter {R : Type} (d : DoubleOps R) (g : GroupOps R) (e : MergeEnv)
    (system : AtomicGroup R) : AtomicGroup R :=
  let system :=
    if e.selection_split then
      let centroid := splitCentroid d g e system
      let system := g.translate (GCoord.neg d centroid) system
      reimageAll g e.molecules system
    else system
  let centroid := passCentroid d g e system
  let system := g.translate (GCoord.neg d centroid) system
  let system := reimageAll g e.molecules system
  let centroid := passCentroid d g e system
  let system := g.translate (GCoord.neg d centroid) system
  let system := reimageAll g e.molecules system
  g.translate (GCoord.neg d centroid) system

/-- What the body of the read loop does to the system between `updateGroupCoords` and
`writeFrame` (lines 484-624). -/
def processFrame {R : Type} (d : DoubleOps R) (g : GroupOps R) (e : MergeEnv)
    (system : AtomicGroup R) : AtomicGroup R :=
  let smallest := smallestHalf d system.periodicBox
  let system :=
    if e.reimage_by_molecule then fixImaging d g e.molecules smallest system else system
  if e.full_recenter || e.xy_recenter || e.z_recenter then recenter d g e system
  else system

/-- The variables the merge loop updates: the counter `previous_frames`, the output
trajectory and the downsampled output trajectory. -/
structure MergeState (R : Type) where
  previous_frames : Nat
  output : TrajectoryWriter R
  output_downsample : TrajectoryWriter R
deriving DecidableEq

/-- One pass through the body of `while (traj->readFrame())` (lines 482-631) for the
frame just read. -/
def frameBody {R : Type} (d : DoubleOps R) (g : GroupOps R) (e : MergeEnv)
    (st : MergeState R) (frame : AtomicGroup R) : MergeState R :=
  let system := processFrame d g e frame
  let output := st.output.writeFrame system
  let output_downsample :=
    if e.do_downsample && decide (st.previous_frames % toUInt e.downsample_rate = 0) then
      st.output_downsample.writeFrame system
    else st.output_downsample
  { previous_frames := toUInt ((st.previous_frames : Int) + 1),
    output := output,
    output_downsample := output_downsample }

/-- The loop `while (traj->readFrame()) { ... }` (lines 480-632).  Each successful read
advances the stream by one frame, so `fuel` above the number of frames of the file is
never used up (`whileReadFrame_eq_foldl`). -/
def whileReadFrame {R : Type} (d : DoubleOps R) (g : GroupOps R) (e : MergeEnv) :
    Nat → Trajectory R → MergeState R → MergeState R
  | 0, _, st => st
  | fuel + 1, traj, st =>
    match traj.readFrame with
    | (traj1, some frame) => whileReadFrame d g e fuel traj1 (frameBody d g e st frame)
    | (_, none) => st

/-- The body of the loop over the input files (lines 435-633) for one file, given as
the list of its frames. -/
def mergeFile {R : Type} (d : DoubleOps R) (g : GroupOps R) (e : MergeEnv)
    (original_num_frames : Nat) (st : MergeState R) (file : List (AtomicGroup R)) :
    MergeState R :=
  let traj := createTrajectory file
  let nframes : Int := toInt traj.nframes
  let nframes : Int :=
    if e.skip_first_frame && decide (nframes > 1) then nframes - 1 else nframes
  if toUInt ((st.previous_frames : Int) + nframes) ≤ original_num_frames then
    { st with previous_frames := toUInt ((st.previous_frames : Int) + nframes) }
  else
    let frames_to_skip : Int :=
      toInt (toUInt ((original_num_frames : Int) - (st.previous_frames : Int)))
    let traj :=
      if frames_to_skip > 0 then traj.seekFrame (toUInt (frames_to_skip - 1)) else traj
    let frames_to_skip : Int := if frames_to_skip > 0 then frames_to_skip else 0
    let st := { st with previous_frames := toUInt ((st.previous_frames : Int) + frames_to_skip) }
    let traj := if e.skip_first_frame then traj.readFrame.1 else traj
    whileReadFrame d g e (file.length + 1) traj st

/-- The loop over `input_dcd_list` (lines 431-635). -/
def mergeLoop {R : Type} (d : DoubleOps R) (g : GroupOps R) (e : MergeEnv)
    (original_num_frames : Nat) (st : MergeState R) (files : List (List (AtomicGroup R))) :
    MergeState R :=
  files.foldl (mergeFile d g e original_num_frames) st

/-- A run of the merge (lines 423-635) on an output trajectory and a downsampled output
trajectory: `original_num_frames` is read from the output, `previous_frames` starts
at 0. -/
def mergeRun {R : Type} (d : DoubleOps R) (g : GroupOps R) (e : MergeEnv)
    (output output_downsample : TrajectoryWriter R) (files : List (List (AtomicGroup R))) :
    MergeState R :=
  mergeLoop d g e output.framesWritten
    { previous_frames := 0, output := output, output_downsample := output_downsample } files

/-! ## The DCD writer of `dcdwriter.cpp` -/

/-- One byte of the output stream. -/
abbrev Byte := Fin 256

/-- The four bytes a 4-byte object (`unsigned int`, `float`) occupies in memory. -/
structure Word32 where
  b0 : Byte
  b1 : Byte
  b2 : Byte
  b3 : Byte
deriving DecidableEq

/-- The bytes of a 4-byte object in memory order. -/
def Word32.bytes (w : Word32) : List Byte := [w.b0, w.b1, w.b2, w.b3]

/-- The eight bytes a `double` occupies in memory. -/
structure Word64 where
  b0 : Byte
  b1 : Byte
  b2 : Byte
  b3 : Byte
  b4 : Byte
  b5 : Byte
  b6 : Byte
  b7 : Byte
deriving DecidableEq

/-- The bytes of an 8-byte object in memory order. -/
def Word64.bytes (w : Word64) : List Byte := [w.b0, w.b1, w.b2, w.b3, w.b4, w.b5, w.b6, w.b7]

/-- The object representations of the host: how an `unsigned int`, a `double` narrowed
to `float`, and a `double` lie in memory. -/
structure HostLayout (R : Type) where
  /-- the representation of an `unsigned int` -/
  uint32 : Nat → Word32
  /-- the representation of `(float) x` for a `double` x -/
  float32 : R → Word32
  /-- the representation of a `double` -/
  float64 : R → Word64

/-- A thrown `runtime_error`, with the message it carries. -/
structure RuntimeError where
  what : String
deriving DecidableEq

/-- The data members of a `DCDWriter`; `_timestep` is a `float`, held by its object
representation, and `_ofs` is the content of the output stream. -/
structure DCDWriter where
  _natoms : Nat
  _nsteps : Nat
  _timestep : Word32
  _current : Nat
  _has_box : Bool
  _titles : List String
  _ofs : List Byte
deriving DecidableEq

/-- Translation of `DCDWriter::writeF77Line(ofs, data, len)` (lines 15-23): the four
bytes of `len`, `len` bytes starting at `data`, the four bytes of `len` again. -/
def writeF77Line {R : Type} (h : HostLayout R) (ofs : List Byte) (data : List Byte)
    (len : Nat) : List Byte :=
  ofs ++ (h.uint32 len).bytes ++ data.take len ++ (h.uint32 len).bytes

/-- The bytes of an array of `float`. -/
def floatBytes {R : Type} (h : HostLayout R) (data : List R) : List Byte :=
  (data.map (fun v => (h.float32 v).bytes)).flatten

/-- The bytes of an array of `double`. -/
def doubleBytes {R : Type} (h : HostLayout R) (data : List R) : List Byte :=
  (data.map (fun v => (h.float64 v).bytes)).flatten

/-- Translation of `DCDWriter::writeBox` (lines 76-80): the array `xtal` of six
`double` written as one record of `6*sizeof(double)` bytes. -/
def DCDWriter.writeBox {R : Type} (d : DoubleOps R) (h : HostLayout R) (w : DCDWriter)
    (box : GCoord R) : DCDWriter :=
  let xtal : List R := [d.one, box.x, d.one, box.y, box.z, d.one]
  { w with _ofs := writeF77Line h w._ofs (doubleBytes h xtal) (toUInt (6 * 8)) }

/-- The atom `grp[i]` of a group; the writer only evaluates it for `i` below the size
of the group. -/
def AtomicGroup.coordsAt {R : Type} (d : DoubleOps R) (grp : AtomicGroup R) (i : Nat) :
    GCoord R :=
  grp.atoms.getD i (GCoord.origin d)

/-- Translation of `DCDWriter::writeFrame(const AtomicGroup&)` (lines 84-113).  The
result is the writer after the call, paired with the exception thrown, if any. -/
def DCDWriter.writeFrame {R : Type} (d : DoubleOps R) (h : HostLayout R) (w : DCDWriter)
    (grp : AtomicGroup R) : DCDWriter × Option RuntimeError :=
  if w._current ≥ w._nsteps then
    (w, some ⟨"Attempting to write more frames than requested."⟩)
  else if grp.size ≠ w._natoms then
    (w, some ⟨"Frame group atom count mismatch"⟩)
  else if !w._has_box && grp.isPeriodic then
    (w, some ⟨"Frame has periodic info but none was requested to be written to the DCD."⟩)
  else
    let w := if w._has_box then w.writeBox d h grp.periodicBox else w
    let data : List R := (List.range w._natoms).map (fun i => (grp.coordsAt d i).x)
    let w := { w with _ofs := writeF77Line h w._ofs (floatBytes h data) (toUInt (w._natoms * 4)) }
    let data : List R := (List.range w._natoms).map (fun i => (grp.coordsAt d i).y)
    let w := { w with _ofs := writeF77Line h w._ofs (floatBytes h data) (toUInt (w._natoms * 4)) }
    let data : List R := (List.range w._natoms).map (fun i => (grp.coordsAt d i).z)
    let w := { w with _ofs := writeF77Line h w._ofs (floatBytes h data) (toUInt (w._natoms * 4)) }
    ({ w with _current := w._current + 1 }, none)

/-- Successive calls of `writeFrame`, one per group of the list, each on the writer the
previous call left; the result is the final writer and the outcome of every call. -/
def DCDWriter.writeFrames {R : Type} (d : DoubleOps R) (h : HostLayout R) :
    DCDWriter → List (AtomicGroup R) → DCDWriter × List (Option RuntimeError)
  | w, [] => (w, [])
  | w, grp :: rest =>
    let r := w.writeFrame d h grp
    let rs := DCDWriter.writeFrames d h r.1 rest
    (rs.1, r.2 :: rs.2)

/-! ### The frame layout in the words of the specification -/

/-- A record as the specification words it: "a 4-byte unsigned length, the raw payload
of that many bytes, then the same 4-byte length repeated". -/
def specRecord {R : Type} (h : HostLayout R) (payload : List Byte) : List Byte :=
  (h.uint32 payload.length).bytes ++ payload ++ (h.uint32 payload.length).bytes

/-- A coordinate record as the specification words it: a record of single-precision
values, one per atom in atom order. -/
def specCoordRecord {R : Type} (h : HostLayout R) (values : List R) : List Byte :=
  specRecord h (values.flatMap (fun v => (h.float32 v).bytes))

/-- The frame layout of a successful `writeFrame` in the words of the specification:
the box record if the box flag is set, then the records of the x, the y and the z
coordinates, one value per atom in atom order. -/
def specFrame {R : Type} (d : DoubleOps R) (h : HostLayout R) (has_box : Bool)
    (grp : AtomicGroup R) : List Byte :=
  (if has_box then
      specRecord h (doubleBytes h
        [d.one, grp.periodicBox.x, d.one, grp.periodicBox.y, grp.periodicBox.z, d.one])
    else [])
  ++ specCoordRecord h (grp.atoms.map (fun c => c.x))
  ++ specCoordRecord h (grp.atoms.map (fun c => c.y))
  ++ specCoordRecord h (grp.atoms.map (fun c => c.z))

/-! ### The reconciliation in the words of the specification -/

/-- Total number of frames of a list of files. -/
def totalFrames {R : Type} (files : List (List (AtomicGroup R))) : Nat :=
  (files.map List.length).sum

/-- The adjusted frame count of a file in the words of the specification: the frame
count, "less one when skip-first-frame is on and nframes > 1". -/
def adjustedCount (skip_first_frame : Bool) (nframes : Nat) : Nat :=
  if skip_first_frame && decide (nframes > 1) then nframes - 1 else nframes

/-- The value the specification gives `previousFrames` at the end of a run: "the sum of
all input files' adjusted frame counts". -/
def specPreviousFrames {R : Type} (skip_first_frame : Bool)
    (files : List (List (AtomicGroup R))) : Nat :=
  (files.map (fun f => adjustedCount skip_first_frame f.length)).sum

/-- The cumulative frame indices the specification sends to the downsampled output:
those `i` with `target <= i < total` and `i mod stride = 0`. -/
def specDownsampleIndices (target total stride : Nat) : List Nat :=
  (List.range total).filter (fun i => decide (target ≤ i) && decide (i % stride = 0))

/-! ## Interpretations for evaluating the definitions on concrete inputs -/

/-- Coordinates on the integer grid standing in for `double`. -/
def gridDouble : DoubleOps Int :=
  { zero := 0, one := 1, huge := 100000000000000000000, neg := fun a => -a,
    half := fun a => a / 2, lt := fun a b => decide (a < b) }

/-- The atoms of a selection in the current state of the system. -/
def selected (m : AtomSel) (s : AtomicGroup Int) : List (GCoord Int) :=
  m.map (fun i => s.atoms.getD i ⟨0, 0, 0⟩)

/-- Group operations on the integer grid for a system whose box is so large that
reimaging moves no atom: translation adds the vector to every atom, the centroid is
the mean of the selected atoms (rounded by integer division). -/
def gridGroup : GroupOps Int :=
  { translate := fun v s =>
      { s with atoms := s.atoms.map (fun c => ⟨c.x + v.x, c.y + v.y, c.z + v.z⟩) },
    reimage := fun _ s => s,
    mergeImage := fun _ s => s,
    radius := fun _ _ => 0,
    centroid := fun m s =>
      ⟨((selected m s).map (fun c => c.x)).sum / (m.length : Int),
       ((selected m s).map (fun c => c.y)).sum / (m.length : Int),
       ((selected m s).map (fun c => c.z)).sum / (m.length : Int)⟩,
    firstCoords := fun m s => s.atoms.getD (m.headD 0) ⟨0, 0, 0⟩ }

/-- The little-endian representation of an `unsigned int`. -/
def leWord32 (n : Nat) : Word32 :=
  { b0 := Fin.ofNat n, b1 := Fin.ofNat (n / 256), b2 := Fin.ofNat (n / 65536),
    b3 := Fin.ofNat (n / 16777216) }

/-- A little-endian host on which a grid coordinate is stored as the two's complement
integer of the width at hand. -/
def gridHost : HostLayout Int :=
  { uint32 := leWord32,
    float32 := fun v => leWord32 (toUInt v),
    float64 := fun v =>
      let lo := leWord32 (toUInt v)
      let hi := leWord32 (toUInt (v / 4294967296))
      ⟨lo.b0, lo.b1, lo.b2, lo.b3, hi.b0, hi.b1, hi.b2, hi.b3⟩ }

/-- The options of `merge-traj` at their defaults, no downsampled output. -/
def defaultEnv : MergeEnv :=
  { center_selection := "", xy_center_selection := "", z_center_selection := "",
    downsample_rate := 10, output_traj_downsample := "", skip_first_frame := false,
    reimage_by_molecule := false, selection_split := false, center := [], xy_center := [],
    z_center := [], molecules := [] }

/-- A one-atom frame recognisable by its number: the atom sits at `(k, 0, 0)`. -/
def frameNo (k : Nat) : AtomicGroup Int :=
  { atoms := [⟨k, 0, 0⟩], isPeriodic := false, periodicBox := ⟨0, 0, 0⟩ }

/-- A file of `n` one-atom frames numbered `start, start+1, ...`. -/
def fileOf (start n : Nat) : List (AtomicGroup Int) :=
  (List.range n).map (fun i => frameNo (start + i))

/-- The default options with `--skip-first-frame` on. -/
def skipFirstEnv : MergeEnv := { defaultEnv with skip_first_frame := true }

/-- The default options with a downsampled output and the given `--downsample-rate`. -/
def strideEnv (rate : Int) : MergeEnv :=
  { defaultEnv with output_traj_downsample := "downsampled.dcd", downsample_rate := rate }

/-- A writer for one-atom frames, capacity `nsteps`, nothing written yet. -/
def freshWriter (nsteps : Nat) (has_box : Bool) : DCDWriter :=
  { _natoms := 1, _nsteps := nsteps, _timestep := ⟨0, 0, 0, 0⟩, _current := 0,
    _has_box := has_box, _titles := [], _ofs := [] }

/-- A one-atom group without periodic box information. -/
def oneAtom : AtomicGroup Int :=
  { atoms := [⟨1, 2, 3⟩], isPeriodic := false, periodicBox := ⟨0, 0, 0⟩ }

/-- A one-atom group with periodic box information. -/
def oneAtomPeriodic : AtomicGroup Int :=
  { atoms := [⟨1, 2, 3⟩], isPeriodic := true, periodicBox := ⟨10, 20, 30⟩ }

/-- A two-atom group without periodic box information. -/
def twoAtoms : AtomicGroup Int :=
  { atoms := [⟨1, 2, 3⟩, ⟨4, 5, 6⟩], isPeriodic := false, periodicBox := ⟨0, 0, 0⟩ }

/-! ## The header of `dcdwriter.cpp` -/

/-- A `char` of a `std::string` as a byte of the stream; a `std::string` is held as a
string of one-byte characters. -/
def charByte (c : Char) : Byte := Fin.ofNat c.toNat

/-- The value of `string(" ", count)`, the constructor that copies `count` characters
starting at the address of the literal: the space, the terminating NUL of the literal,
and from the third character on whatever lies behind the literal in memory (`beyond`;
the C++ standard leaves that read undefined). -/
def bufferString (beyond : Nat → Char) (count : Nat) : List Char :=
  (List.range count).map
    (fun j => if j = 0 then Char.ofNat 32 else if j = 1 then Char.ofNat 0 else beyond (j - 2))

/-- Translation of `DCDWriter::fixStringSize(s, n)` (lines 26-36). -/
def fixStringSize (beyond : Nat → Char) (s : String) (n : Nat) : String :=
  let result := s
  if s.length < n then
    let i : Int := toInt (toUInt ((n : Int) - (s.length : Int)))
    result ++ String.mk (bufferString beyond (i % 18446744073709551616).toNat)
  else if s.length > n then
    String.mk (s.data.take n)
  else result

/-- The result of `fixStringSize` in the words of the specification: the first `n`
characters of `s` when `s` has at least `n` characters, and `s` followed by `n - |s|`
space characters when it is shorter. -/
def specFixStringSize (s : String) (n : Nat) : String :=
  if s.length ≥ n then String.mk (s.data.take n)
  else s ++ String.mk (List.replicate (n - s.length) (Char.ofNat 32))

/-- Modelled from the spec: the union `DataOverlay`, declared in a header that is not
part of the sources at hand: a 4-byte object read as an `unsigned int` (`ui`) or as a
`float` (`f`), "a 4-byte float inside the integer header array at a fixed slot". -/
abbrev DataOverlay := Word32

/-- The array `icntrl` of `writeHeader` after the assignments of lines 43-54, seen
through `dop`; `dop[9].f = _timestep` overlays word 9 with the `float`. -/
def controlBlock {R : Type} (h : HostLayout R) (w : DCDWriter) : List DataOverlay :=
  let icntrl := List.replicate 20 (h.uint32 0)
  let icntrl := icntrl.set 0 (h.uint32 w._nsteps)
  let icntrl := icntrl.set 1 (h.uint32 1)
  let icntrl := icntrl.set 2 (h.uint32 1)
  let icntrl := icntrl.set 3 (h.uint32 w._nsteps)
  let icntrl := icntrl.set 7 (h.uint32 (toUInt ((w._natoms : Int) * 3 - 6)))
  let icntrl := icntrl.set 8 (h.uint32 0)
  let icntrl := icntrl.set 9 w._timestep
  let icntrl := icntrl.set 10 (h.uint32 (if w._has_box then 1 else 0))
  icntrl.set 19 (h.uint32 27)

/-- The 80 bytes `memcpy` takes from `s.c_str()` (line 64). -/
def titleBytes (s : String) : List Byte := (s.data.map charByte).take 80

/-- The control block of the header in the words of the specification: twenty 4-byte
words, the declared frame count in word 0 (and again in word 3), the timestep as a
`float` in word 9, the periodicity flag in word 10, the sentinel 27 in word 19; words 1
and 2 hold 1, word 7 holds `3 N - 6` and the other words 0. -/
def specControlWords {R : Type} (h : HostLayout R) (nsteps natoms : Nat) (timestep : Word32)
    (has_box : Bool) : List Word32 :=
  [h.uint32 nsteps, h.uint32 1, h.uint32 1, h.uint32 nsteps, h.uint32 0,
   h.uint32 0, h.uint32 0, h.uint32 (toUInt ((natoms : Int) * 3 - 6)), h.uint32 0,
   timestep, h.uint32 (if has_box then 1 else 0), h.uint32 0, h.uint32 0,
   h.uint32 0, h.uint32 0, h.uint32 0, h.uint32 0, h.uint32 0, h.uint32 0,
   h.uint32 27]

/-- A title field of the header in the words of the specification, "each title string
fixed/truncated-or-padded to exactly 80 bytes": the first 80 characters of the title,
followed, when the title is shorter, by the `80 - |t|` characters of the padding
`string(" ", 80 - |t|)`. -/
def specTitleField (beyond : Nat → Char) (t : String) : List Byte :=
  (t.data.take 80).map charByte ++ (bufferString beyond (80 - t.length)).map charByte

/-- The buffer `ptr` of `writeHeader` (lines 58-65): the number of titles, then each
title brought to 80 characters by `fixStringSize`. -/
def titleBlock {R : Type} (h : HostLayout R) (beyond : Nat → Char) (w : DCDWriter) :
    List Byte :=
  (h.uint32 (toUInt w._titles.length)).bytes
    ++ (w._titles.map (fun t => titleBytes (fixStringSize beyond t 80))).flatten

/-- Translation of `DCDWriter::writeHeader` (lines 39-72). -/
def DCDWriter.writeHeader {R : Type} (h : HostLayout R) (beyond : Nat → Char)
    (w : DCDWriter) : DCDWriter :=
  let ofs := writeF77Line h w._ofs ((controlBlock h w).map Word32.bytes).flatten
    (toUInt (20 * 4))
  let size := toUInt (4 + 80 * (w._titles.length : Int))
  let ofs := writeF77Line h ofs (titleBlock h beyond w) size
  let ofs := writeF77Line h ofs (h.uint32 w._natoms).bytes (toUInt (1 * 4))
  { w with _ofs := ofs }

/-- The length of the header of a file with `k` titles: the framed control block
(4 + 80 + 4), the framed title record (4 + 4 + 80 k + 4) and the framed atom count
(4 + 4 + 4). -/
def headerLen (k : Nat) : Nat := 112 + 80 * k

/-- The length of one frame for atom count `N` and box flag `b`: the framed box
record of six `double` when the box flag is set, and three framed records of `N`
four-byte values. -/
def frameLen (N : Nat) (b : Bool) : Nat := (if b then 4 + 48 + 4 else 0) + 3 * (4 + 4 * N + 4)

/-! ## Option validation of `merge-traj.cpp` -/

/-- Translation of `ToolOptions::postConditions` (lines 76-90); the message written
to `cerr` is left out. -/
def postConditions (e : MergeEnv) : Bool :=
  if (e.center_selection.length != 0)
      && ((e.xy_center_selection.length != 0) || (e.z_center_selection.length != 0)) then
    false
  else true

/-! ## `AmberNetcdf::coords` of `amber_netcdf.hpp` -/

/-- The data members of an `AmberNetcdf` read by `coords()`: the coordinate array of
the current frame, `3 * _natoms` values, and the atom count. -/
structure AmberNetcdf (R : Type) where
  _coord_data : List R
  _natoms : Nat

/-- The element `_coord_data[i]`. -/
def AmberNetcdf.coordData {R : Type} (d : DoubleOps R) (t : AmberNetcdf R) (i : Nat) : R :=
  t._coord_data.getD i d.zero

/-- The loop of `AmberNetcdf::coords()` (lines 118-119) from index `i` on, `res` being
the vector built so far; `i` is a `uint`. -/
def AmberNetcdf.coordsLoop {R : Type} (d : DoubleOps R) (t : AmberNetcdf R) :
    Nat → Nat → List (GCoord R) → List (GCoord R)
  | 0, _, res => res
  | fuel + 1, i, res =>
    if i < t._natoms then
      AmberNetcdf.coordsLoop d t fuel (toUInt ((i : Int) + 3))
        (res ++ [⟨t.coordData d i, t.coordData d (i + 1), t.coordData d (i + 2)⟩])
    else res

/-- Translation of `AmberNetcdf::coords()` (lines 116-121).  The index grows by 3 in
every pass, so `_natoms` passes are never used up (`coords_eq`). -/
def AmberNetcdf.coords {R : Type} (d : DoubleOps R) (t : AmberNetcdf R) : List (GCoord R) :=
  AmberNetcdf.coordsLoop d t t._natoms 0 []

/-- The coordinates of a frame in the words of the specification: `N` points, the
`i`-th being `(data[3i], data[3i+1], data[3i+2])`. -/
def specCoords {R : Type} (d : DoubleOps R) (t : AmberNetcdf R) : List (GCoord R) :=
  (List.range t._natoms).map
    (fun i => ⟨t.coordData d (3 * i), t.coordData d (3 * i + 1), t.coordData d (3 * i + 2)⟩)

/-! ## Sorting the input file names, `merge-traj.cpp` -/

/-- The `SortDatum` of lines 286-293: a file name bound to its number. -/
structure SortDatum where
  s : String
  n : Nat
deriving DecidableEq

/-- The comparison `operator<` of lines 297-300. -/
def SortDatum.lt (a b : SortDatum) : Bool := decide (a.n < b.n)

/-- The contract of `std::sort` of the C++ standard library for the comparison `lt`:
the result is a rearrangement of the range in which no element is less than an element
before it.  The order of equivalent elements is left open. -/
structure StdSort (α : Type) (lt : α → α → Bool) where
  sort : List α → List α
  perm : ∀ l : List α, (sort l).Perm l
  sorted : ∀ l : List α, (sort l).Pairwise (fun a b => lt b a = false)

/-- Translation of `sortNamesByFormat(names, op)` (lines 308-325).  The functor `op`
returns the number it extracts from a name, or `none` where it ends the process with
`exit(-20)`; then `sortNamesByFormat` does not return either. -/
def sortNamesByFormat (std : StdSort SortDatum SortDatum.lt) (names : List String)
    (op : String → Option Nat) : Option (List String) :=
  let n := toUInt names.length
  match (List.range n).mapM
      (fun i => (op (names.getD i "")).map (fun k => SortDatum.mk (names.getD i "") k)) with
  | none => none
  | some bound =>
    let bound := std.sort bound
    some ((List.range n).map (fun i => (bound.getD i ⟨"", 0⟩).s))

/-- Sorting by insertion on the number, an instance of the contract of `std::sort`. -/
def insertionStdSort : StdSort SortDatum SortDatum.lt :=
  haveI : IsTotal SortDatum (fun a b => a.n ≤ b.n) := ⟨fun a b => Nat.le_total a.n b.n⟩
  haveI : IsTrans SortDatum (fun a b => a.n ≤ b.n) := ⟨fun _ _ _ h1 h2 => Nat.le_trans h1 h2⟩
  { sort := List.insertionSort (fun a b => a.n ≤ b.n),
    perm := fun l => List.perm_insertionSort _ l,
    sorted := fun l =>
      (List.sorted_insertionSort (fun a b : SortDatum => a.n ≤ b.n) l).imp
        (fun hab => by simpa [SortDatum.lt] using hab) }

/-! ## The recentering block of `merge-traj.cpp`, instrumented -/

/-- The recentering block (lines 523-624) as `recenter`, with the argument of every
`system.translate` call recorded in the order of the calls. -/
def recenterTraced {R : Type} (d : DoubleOps R) (g : GroupOps R) (e : MergeEnv)
    (system : AtomicGroup R) : AtomicGroup R × List (GCoord R) :=
  let r0 : AtomicGroup R × List (GCoord R) :=
    if e.selection_split then
      let centroid := splitCentroid d g e system
      let system := g.translate (GCoord.neg d centroid) system
      (reimageAll g e.molecules system, [GCoord.neg d centroid])
    else (system, [])
  let system := r0.1
  let centroid := passCentroid d g e system
  let t1 := GCoord.neg d centroid
  let system := g.translate (GCoord.neg d centroid) system
  let system := reimageAll g e.molecules system
  let centroid := passCentroid d g e system
  let t2 := GCoord.neg d centroid
  let system := g.translate (GCoord.neg d centroid) system
  let system := reimageAll g e.molecules system
  let t3 := GCoord.neg d centroid
  (g.translate (GCoord.neg d centroid) system, r0.2 ++ [t1, t2, t3])

/-- The system after the selection-is-split pre-pass (lines 531-557), the system itself
when the flag is off. -/
def afterSplit {R : Type} (d : DoubleOps R) (g : GroupOps R) (e : MergeEnv)
    (system : AtomicGroup R) : AtomicGroup R :=
  if e.selection_split then
    reimageAll g e.molecules (g.translate (GCoord.neg d (splitCentroid d g e system)) system)
  else system

/-- The system after the first regular pass (lines 560-582). -/
def afterFirstPass {R : Type} (d : DoubleOps R) (g : GroupOps R) (e : MergeEnv)
    (system : AtomicGroup R) : AtomicGroup R :=
  reimageAll g e.molecules
    (g.translate (GCoord.neg d (passCentroid d g e (afterSplit d g e system)))
      (afterSplit d g e system))

/-- The system after the second regular pass (lines 591-613), the system the
`translate` call of line 618 is applied to. -/
def afterSecondPass {R : Type} (d : DoubleOps R) (g : GroupOps R) (e : MergeEnv)
    (system : AtomicGroup R) : AtomicGroup R :=
  reimageAll g e.molecules
    (g.translate (GCoord.neg d (passCentroid d g e (afterFirstPass d g e system)))
      (afterFirstPass d g e system))

/-- The centering vector of the xy/z mode in the words of the specification: x and y
of the reference point of the xy-selection, z of the reference point of the
z-selection, and 0 for a component whose selection is not configured. -/
def specCenterVector {R : Type} (d : DoubleOps R) (xy_on z_on : Bool) (pxy pz : GCoord R) :
    GCoord R :=
  { x := if xy_on then pxy.x else d.zero,
    y := if xy_on then pxy.y else d.zero,
    z := if z_on then pz.z else d.zero }

/-- The frame written in full centering mode in the words of the specification:
`R(T(-c2, R(T(-c1, f))))`, two centre-then-reimage passes. -/
def specTwoPass {R : Type} (d : DoubleOps R) (g : GroupOps R) (center : AtomSel)
    (molecules : List AtomSel) (f : AtomicGroup R) : AtomicGroup R :=
  let c1 := g.centroid center f
  let s1 := reimageAll g molecules (g.translate (GCoord.neg d c1) f)
  let c2 := g.centroid center s1
  reimageAll g molecules (g.translate (GCoord.neg d c2) s1)

/-! ## Further interpretations for evaluating the definitions -/

/-- Reimaging of one component into the box on the integer grid,
`c - box * rint(c / box)`; a box of extent 0 leaves the component as it is. -/
def wrapComponent (box c : Int) : Int :=
  if box = 0 then c else c - box * ((2 * c + box) / (2 * box))

/-- Reimaging of a molecule on the integer grid, `AtomicGroup::reimage()`: every atom
of the molecule is moved by the box vector that brings the centroid of the molecule
into the box around the origin. -/
def boxReimage (m : AtomSel) (s : AtomicGroup Int) : AtomicGroup Int :=
  let com := gridGroup.centroid m s
  let tx := wrapComponent s.periodicBox.x com.x - com.x
  let ty := wrapComponent s.periodicBox.y com.y - com.y
  let tz := wrapComponent s.periodicBox.z com.z - com.z
  let moved : List (GCoord Int) :=
    ((List.range s.atoms.length).zip s.atoms).map
      (fun p => if p.1 ∈ m then ⟨p.2.x + tx, p.2.y + ty, p.2.z + tz⟩ else p.2)
  { s with atoms := moved }

/-- Group operations on the integer grid with a periodic box: as `gridGroup`, with
`boxReimage` for `reimage`. -/
def boxGroup : GroupOps Int :=
  { gridGroup with reimage := boxReimage }

/-- The default options with `--centering-selection` given: the selection holds the
atoms 0, 1, 2, each of them a molecule of its own. -/
def centerEnv : MergeEnv :=
  { defaultEnv with center_selection := "all", center := [0, 1, 2],
                    molecules := [[0], [1], [2]] }

/-- A periodic frame of three atoms on the x axis, at 0, 0 and 9, in a box of
extent 10. -/
def threeAtoms : AtomicGroup Int :=
  { atoms := [⟨0, 0, 0⟩, ⟨0, 0, 0⟩, ⟨9, 0, 0⟩], isPeriodic := true,
    periodicBox := ⟨10, 10, 10⟩ }

/-- The default options with `--xy-centering-selection` given: the selection holds
the atoms 0, 1, 2, each of them a molecule of its own. -/
def xySelEnv : MergeEnv :=
  { defaultEnv with xy_center_selection := "all", xy_center := [0, 1, 2],
                    molecules := [[0], [1], [2]] }

/-- A periodic frame of three atoms on the x axis, at 0, 0 and 27, in a box of
extent 30. -/
def wideAtoms : AtomicGroup Int :=
  { atoms := [⟨0, 0, 0⟩, ⟨0, 0, 0⟩, ⟨27, 0, 0⟩], isPeriodic := true,
    periodicBox := ⟨30, 30, 30⟩ }

/-- Memory behind the string literal that holds the letter `x` throughout. -/
def xMemory : Nat → Char := fun _ => Char.ofNat 120

/-- A writer for one-atom frames with the titles given, nothing written yet. -/
def titledWriter (titles : List String) (has_box : Bool) : DCDWriter :=
  { _natoms := 1, _nsteps := 5, _timestep := ⟨0, 0, 128, 63⟩, _current := 0,
    _has_box := has_box, _titles := titles, _ofs := [] }

/-! # Theorems -/

/-! ## Machine integers in range -/

theorem toUInt_natCast {n : Nat} (h : n < 4294967296) : toUInt (n : Int) = n := by
  unfold toUInt; omega

theorem toUInt_add_natCast {a b : Nat} (h : a + b < 4294967296) :
    toUInt ((a : Int) + (b : Int)) = a + b := by
  unfold toUInt; omega

theorem toInt_small {n : Nat} (h : n < 2147483648) : toInt n = (n : Int) := by
  unfold toInt
  have h1 : n % 4294967296 = n := Nat.mod_eq_of_lt (by omega)
  rw [h1, if_pos h]

theorem toInt_toUInt_sub_nonpos {a b : Nat} (hab : a ≤ b) (hb : b < 2147483648) :
    toInt (toUInt ((a : Int) - (b : Int))) ≤ 0 := by
  unfold toInt toUInt
  split <;> omega

/-! ## The read loop -/

theorem readFrame_some {R : Type} (t : Trajectory R) (h : t.pos < t.frames.length) :
    t.readFrame = ({ t with pos := t.pos + 1 }, some (t.frames[t.pos])) := by
  unfold Trajectory.readFrame
  rw [List.getElem?_eq_getElem h]

theorem readFrame_none {R : Type} (t : Trajectory R) (h : t.frames.length ≤ t.pos) :
    t.readFrame = (t, none) := by
  unfold Trajectory.readFrame
  rw [List.getElem?_eq_none h]

/-- With fuel above the number of frames left, the read loop runs the body on every
frame from the current position to the end of the file, in order: the fuel is never
what stops it. -/
theorem whileReadFrame_eq_foldl {R : Type} (d : DoubleOps R) (g : GroupOps R) (e : MergeEnv)
    (fuel : Nat) (traj : Trajectory R) (st : MergeState R)
    (hfuel : traj.frames.length < fuel + traj.pos) :
    whileReadFrame d g e fuel traj st
      = (traj.frames.drop traj.pos).foldl (frameBody d g e) st := by
  induction fuel generalizing traj st with
  | zero =>
    have h : traj.frames.length ≤ traj.pos := by omega
    simp [whileReadFrame, List.drop_eq_nil_of_le h]
  | succ fuel ih =>
    by_cases h : traj.pos < traj.frames.length
    · rw [whileReadFrame, readFrame_some traj h]
      simp only
      rw [ih _ _ (by simp; omega), List.drop_eq_getElem_cons h, List.foldl_cons]
    · have h1 : traj.frames.length ≤ traj.pos := by omega
      rw [whileReadFrame, readFrame_none traj h1]
      simp [List.drop_eq_nil_of_le h1]

theorem foldl_frameBody_prev {R : Type} (d : DoubleOps R) (g : GroupOps R) (e : MergeEnv)
    (fs : List (AtomicGroup R)) (st : MergeState R)
    (h : st.previous_frames + fs.length < 4294967296) :
    (fs.foldl (frameBody d g e) st).previous_frames = st.previous_frames + fs.length := by
  induction fs generalizing st with
  | nil => simp
  | cons f fs ih =>
    have h1 : (frameBody d g e st f).previous_frames = st.previous_frames + 1 := by
      simp only [frameBody, toUInt, List.length_cons] at h ⊢
      omega
    rw [List.foldl_cons, ih _ (by rw [h1]; simp only [List.length_cons] at h; omega), h1]
    simp only [List.length_cons]; omega

theorem foldl_frameBody_output {R : Type} (d : DoubleOps R) (g : GroupOps R) (e : MergeEnv)
    (fs : List (AtomicGroup R)) (st : MergeState R) :
    (fs.foldl (frameBody d g e) st).output.frames
      = st.output.frames ++ fs.map (processFrame d g e) := by
  induction fs generalizing st with
  | nil => simp
  | cons f fs ih =>
    rw [List.foldl_cons, ih]
    simp [frameBody, TrajectoryWriter.writeFrame]

theorem mergeState_eta {R : Type} (st : MergeState R) :
    { st with previous_frames := st.previous_frames } = st := by
  cases st; rfl

/-- A file met when the counter has reached the frame count of the existing output is
read from its first frame to its last. -/
theorem mergeFile_writeAll {R : Type} (d : DoubleOps R) (g : GroupOps R) (e : MergeEnv)
    (hskip : e.skip_first_frame = false) (target : Nat) (st : MergeState R)
    (file : List (AtomicGroup R)) (ht : target ≤ st.previous_frames)
    (hr : st.previous_frames + file.length < 2147483648) :
    mergeFile d g e target st file = file.foldl (frameBody d g e) st := by
  have hn : toInt (toUInt (file.length : Int)) = (file.length : Int) := by
    rw [toUInt_natCast (by omega), toInt_small (by omega)]
  have hsum : toUInt ((st.previous_frames : Int) + (file.length : Int))
      = st.previous_frames + file.length := toUInt_add_natCast (by omega)
  have hfts : toInt (toUInt ((target : Int) - (st.previous_frames : Int))) ≤ 0 :=
    toInt_toUInt_sub_nonpos ht (by omega)
  unfold mergeFile
  simp only [createTrajectory, Trajectory.nframes, hskip, Bool.false_and, hn,
    Bool.false_eq_true, if_false, hsum]
  by_cases hle : st.previous_frames + file.length ≤ target
  · have h0 : file.length = 0 := by omega
    have hnil : file = [] := List.length_eq_zero.mp h0
    subst hnil
    have hle2 : st.previous_frames ≤ target := by simpa using hle
    simp [hle2, mergeState_eta]
  · have hpos : ¬ (toInt (toUInt ((target : Int) - (st.previous_frames : Int))) > 0) := by
      omega
    simp only [hle, hpos, if_false, Bool.false_eq_true]
    rw [whileReadFrame_eq_foldl _ _ _ _ _ _ (by simp)]
    simp only [List.drop_zero, add_zero]
    rw [toUInt_natCast (by omega), mergeState_eta]

/-- A file that fits below the frame count of the existing output is skipped. -/
theorem mergeFile_skipAll {R : Type} (d : DoubleOps R) (g : GroupOps R) (e : MergeEnv)
    (hskip : e.skip_first_frame = false) (target : Nat) (st : MergeState R)
    (file : List (AtomicGroup R)) (ht : st.previous_frames + file.length ≤ target)
    (hr : target < 2147483648) :
    mergeFile d g e target st file
      = { st with previous_frames := st.previous_frames + file.length } := by
  have hn : toInt (toUInt (file.length : Int)) = (file.length : Int) := by
    rw [toUInt_natCast (by omega), toInt_small (by omega)]
  have hsum : toUInt ((st.previous_frames : Int) + (file.length : Int))
      = st.previous_frames + file.length := toUInt_add_natCast (by omega)
  unfold mergeFile
  simp only [createTrajectory, Trajectory.nframes, hskip, Bool.false_and, hn,
    Bool.false_eq_true, if_false, hsum]
  simp [ht]

/-! ## The loop over the files, skip-first-frame off -/

theorem totalFrames_nil {R : Type} : totalFrames ([] : List (List (AtomicGroup R))) = 0 := rfl

theorem totalFrames_cons {R : Type} (file : List (AtomicGroup R))
    (files : List (List (AtomicGroup R))) :
    totalFrames (file :: files) = file.length + totalFrames files := by
  simp [totalFrames]

theorem totalFrames_append {R : Type} (A B : List (List (AtomicGroup R))) :
    totalFrames (A ++ B) = totalFrames A + totalFrames B := by
  simp [totalFrames]

theorem totalFrames_eq_length_flatten {R : Type} (files : List (List (AtomicGroup R))) :
    totalFrames files = files.flatten.length := by
  simp [totalFrames, List.length_flatten]

theorem mergeLoop_append {R : Type} (d : DoubleOps R) (g : GroupOps R) (e : MergeEnv)
    (target : Nat) (st : MergeState R) (A B : List (List (AtomicGroup R))) :
    mergeLoop d g e target st (A ++ B)
      = mergeLoop d g e target (mergeLoop d g e target st A) B := by
  simp [mergeLoop, List.foldl_append]

theorem mergeLoop_writeAll {R : Type} (d : DoubleOps R) (g : GroupOps R) (e : MergeEnv)
    (hskip : e.skip_first_frame = false) (target : Nat)
    (files : List (List (AtomicGroup R))) (st : MergeState R)
    (ht : target ≤ st.previous_frames)
    (hr : st.previous_frames + totalFrames files < 2147483648) :
    mergeLoop d g e target st files = files.flatten.foldl (frameBody d g e) st := by
  induction files generalizing st with
  | nil => simp [mergeLoop]
  | cons file files ih =>
    rw [totalFrames_cons] at hr
    have hfile := mergeFile_writeAll d g e hskip target st file ht (by omega)
    have hprev := foldl_frameBody_prev d g e file st (by omega)
    have hstep : mergeLoop d g e target st (file :: files)
        = mergeLoop d g e target (mergeFile d g e target st file) files := by
      simp [mergeLoop]
    rw [hstep, hfile, ih _ (by rw [hprev]; omega) (by rw [hprev]; omega)]
    simp [List.foldl_append]

theorem mergeLoop_skipAll {R : Type} (d : DoubleOps R) (g : GroupOps R) (e : MergeEnv)
    (hskip : e.skip_first_frame = false) (target : Nat)
    (files : List (List (AtomicGroup R))) (st : MergeState R)
    (ht : st.previous_frames + totalFrames files ≤ target)
    (hr : target < 2147483648) :
    mergeLoop d g e target st files
      = { st with previous_frames := st.previous_frames + totalFrames files } := by
  induction files generalizing st with
  | nil => simp [mergeLoop, totalFrames_nil, mergeState_eta]
  | cons file files ih =>
    rw [totalFrames_cons] at ht
    have hfile := mergeFile_skipAll d g e hskip target st file (by omega) hr
    have hstep : mergeLoop d g e target st (file :: files)
        = mergeLoop d g e target (mergeFile d g e target st file) files := by
      simp [mergeLoop]
    rw [hstep, hfile, ih _ (by simp only; omega), totalFrames_cons]
    simp only [Nat.add_assoc]

theorem framesWritten_nil {R : Type} :
    (⟨[]⟩ : TrajectoryWriter R).framesWritten = 0 := by
  simp [TrajectoryWriter.framesWritten, toUInt]

/-- A run on an empty output passes every frame of every file through the loop body,
in file order and then frame order. -/
theorem mergeRun_fresh {R : Type} (d : DoubleOps R) (g : GroupOps R) (e : MergeEnv)
    (hskip : e.skip_first_frame = false) (ds : TrajectoryWriter R)
    (files : List (List (AtomicGroup R))) (hr : totalFrames files < 2147483648) :
    mergeRun d g e ⟨[]⟩ ds files
      = files.flatten.foldl (frameBody d g e)
          { previous_frames := 0, output := ⟨[]⟩, output_downsample := ds } := by
  unfold mergeRun
  rw [framesWritten_nil]
  exact mergeLoop_writeAll d g e hskip 0 files _ (Nat.zero_le _) (by simpa using hr)

/-- A run over `A` and then `B` on the outputs a run over `A` left ends in the state of
a single run over `A` and then `B`. -/
theorem mergeRun_resume {R : Type} (d : DoubleOps R) (g : GroupOps R)
    (e : MergeEnv) (ds : TrajectoryWriter R) (A B : List (List (AtomicGroup R)))
    (hskip : e.skip_first_frame = false)
    (hrange : totalFrames (A ++ B) < 2147483648) :
    mergeRun d g e (mergeRun d g e ⟨[]⟩ ds A).output
        (mergeRun d g e ⟨[]⟩ ds A).output_downsample (A ++ B)
      = mergeRun d g e ⟨[]⟩ ds (A ++ B) := by
  rw [totalFrames_append] at hrange
  have hA : totalFrames A < 2147483648 := by omega
  -- the state the first run ends in
  have hfirst := mergeRun_fresh d g e hskip ds A hA
  have hprev : (mergeRun d g e ⟨[]⟩ ds A).previous_frames = totalFrames A := by
    rw [hfirst, foldl_frameBody_prev _ _ _ _ _
        (by rw [← totalFrames_eq_length_flatten]; simp; omega),
      ← totalFrames_eq_length_flatten]
    simp
  have hout : (mergeRun d g e ⟨[]⟩ ds A).output.framesWritten = totalFrames A := by
    unfold TrajectoryWriter.framesWritten
    rw [hfirst, foldl_frameBody_output, List.nil_append, List.length_map,
      ← totalFrames_eq_length_flatten, toUInt_natCast (by omega)]
  -- the single run passes through that state
  have hsingle : mergeRun d g e ⟨[]⟩ ds (A ++ B)
      = mergeLoop d g e 0 (mergeRun d g e ⟨[]⟩ ds A) B := by
    unfold mergeRun
    rw [framesWritten_nil, mergeLoop_append]
  rw [hsingle, mergeLoop_writeAll d g e hskip 0 B _ (Nat.zero_le _) (by rw [hprev]; omega)]
  -- the second run skips the files of `A` and arrives at the same state
  generalize mergeRun d g e ⟨[]⟩ ds A = s1 at hprev hout
  unfold mergeRun
  rw [hout, mergeLoop_append,
    mergeLoop_skipAll d g e hskip (totalFrames A) A _ (by simp) hA]
  have hst : MergeState.mk (0 + totalFrames A) s1.output s1.output_downsample = s1 := by
    cases s1; simp at hprev ⊢; omega
  simp only at hst ⊢
  rw [hst, mergeLoop_writeAll d g e hskip (totalFrames A) B s1 (by omega) (by omega)]

/-- With skip-first-frame off, a second run with the same files leaves the state the
first run ended in: no frame is written again. -/
theorem mergeRun_idempotent_default {R : Type} (d : DoubleOps R) (g : GroupOps R)
    (e : MergeEnv) (ds : TrajectoryWriter R) (A : List (List (AtomicGroup R)))
    (hskip : e.skip_first_frame = false) (hrange : totalFrames A < 2147483648) :
    mergeRun d g e (mergeRun d g e ⟨[]⟩ ds A).output
        (mergeRun d g e ⟨[]⟩ ds A).output_downsample A
      = mergeRun d g e ⟨[]⟩ ds A := by
  have h := mergeRun_resume d g e ds A [] hskip (by simpa using hrange)
  simpa using h

/-- With skip-first-frame off and a single input file of which the output already holds
the first `t` frames, `1 <= t < n`: the stream is positioned at frame `t - 1` and every
frame from there on is written, so frame `t - 1` is written a second time. -/
theorem mergeRun_grown_file {R : Type} (d : DoubleOps R) (g : GroupOps R) (e : MergeEnv)
    (ds : TrajectoryWriter R) (out file : List (AtomicGroup R))
    (hskip : e.skip_first_frame = false) (ht : 1 ≤ out.length)
    (hlt : out.length < file.length) (hr : file.length < 2147483648) :
    (mergeRun d g e ⟨out⟩ ds [file]).output.frames
      = out ++ (file.drop (out.length - 1)).map (processFrame d g e) := by
  have hn : toInt (toUInt (file.length : Int)) = (file.length : Int) := by
    rw [toUInt_natCast (by omega), toInt_small (by omega)]
  have htgt : toUInt (out.length : Int) = out.length := toUInt_natCast (by omega)
  have hsum : toUInt (((0 : Nat) : Int) + (file.length : Int)) = file.length := by
    unfold toUInt; omega
  have hfts : toInt (toUInt ((out.length : Int) - ((0 : Nat) : Int))) = (out.length : Int) := by
    have : toUInt ((out.length : Int) - ((0 : Nat) : Int)) = out.length := by
      unfold toUInt; omega
    rw [this, toInt_small (by omega)]
  have hseek : toUInt ((out.length : Int) - 1) = out.length - 1 := by unfold toUInt; omega
  have hprev : toUInt (((0 : Nat) : Int) + (out.length : Int)) = out.length := by
    unfold toUInt; omega
  have hpos : (out.length : Int) > 0 := by omega
  have hnle : ¬ file.length ≤ out.length := by omega
  unfold mergeRun mergeLoop TrajectoryWriter.framesWritten
  simp only [List.foldl_cons, List.foldl_nil]
  unfold mergeFile
  simp only [createTrajectory, Trajectory.nframes, hskip, Bool.false_and, Bool.false_eq_true,
    if_false, hn, htgt, hsum, hfts, hnle, hpos, if_true, hseek, hprev, Trajectory.seekFrame]
  rw [whileReadFrame_eq_foldl _ _ _ _ _ _ (by simp; omega), foldl_frameBody_output]

/-! ## The DCD writer, case by case -/

theorem writeFrame_full {R : Type} (d : DoubleOps R) (h : HostLayout R)
    (w : DCDWriter) (grp : AtomicGroup R) (h1 : w._nsteps ≤ w._current) :
    w.writeFrame d h grp = (w, some ⟨"Attempting to write more frames than requested."⟩) := by
  unfold DCDWriter.writeFrame
  rw [if_pos h1]

theorem writeFrame_mismatch {R : Type} (d : DoubleOps R) (h : HostLayout R)
    (w : DCDWriter) (grp : AtomicGroup R) (h1 : w._current < w._nsteps)
    (h2 : grp.size ≠ w._natoms) :
    w.writeFrame d h grp = (w, some ⟨"Frame group atom count mismatch"⟩) := by
  unfold DCDWriter.writeFrame
  rw [if_neg (by omega), if_pos h2]

theorem writeFrame_periodic {R : Type} (d : DoubleOps R) (h : HostLayout R)
    (w : DCDWriter) (grp : AtomicGroup R) (h1 : w._current < w._nsteps)
    (h2 : grp.size = w._natoms) (h3 : w._has_box = false) (h4 : grp.isPeriodic = true) :
    w.writeFrame d h grp
      = (w, some
          ⟨"Frame has periodic info but none was requested to be written to the DCD."⟩) := by
  unfold DCDWriter.writeFrame
  rw [if_neg (by omega), if_neg (by simpa using h2), if_pos (by simp [h3, h4])]

theorem writeFrame_success {R : Type} (d : DoubleOps R) (h : HostLayout R)
    (w : DCDWriter) (grp : AtomicGroup R) (h1 : w._current < w._nsteps)
    (h2 : grp.size = w._natoms) (h3 : grp.isPeriodic = false ∨ w._has_box = true) :
    (w.writeFrame d h grp).2 = none
    ∧ (w.writeFrame d h grp).1._natoms = w._natoms
    ∧ (w.writeFrame d h grp).1._nsteps = w._nsteps
    ∧ (w.writeFrame d h grp).1._has_box = w._has_box
    ∧ (w.writeFrame d h grp).1._current = w._current + 1 := by
  have hg : ¬ ((!w._has_box && grp.isPeriodic) = true) := by
    rcases h3 with h3 | h3 <;> simp [h3]
  unfold DCDWriter.writeFrame
  rw [if_neg (by omega), if_neg (by simpa using h2), if_neg hg]
  cases hb : w._has_box <;> simp [DCDWriter.writeBox, hb]

theorem periodic_without_box {R : Type} (w : DCDWriter) (grp : AtomicGroup R)
    (h3 : ¬ (grp.isPeriodic = false ∨ w._has_box = true)) :
    w._has_box = false ∧ grp.isPeriodic = true := by
  cases hw : w._has_box <;> cases hp : grp.isPeriodic <;> simp [hw, hp] at h3 ⊢

theorem writeFrame_ok_iff {R : Type} (d : DoubleOps R) (h : HostLayout R)
    (w : DCDWriter) (grp : AtomicGroup R) :
    (w.writeFrame d h grp).2 = none
      ↔ (w._current < w._nsteps ∧ grp.size = w._natoms
          ∧ (grp.isPeriodic = false ∨ w._has_box = true)) := by
  constructor
  · intro hok
    by_cases h1 : w._nsteps ≤ w._current
    · rw [writeFrame_full d h w grp h1] at hok; simp at hok
    · by_cases h2 : grp.size = w._natoms
      · refine ⟨by omega, h2, ?_⟩
        by_contra h3
        obtain ⟨hb, hp⟩ := periodic_without_box w grp h3
        rw [writeFrame_periodic d h w grp (by omega) h2 hb hp] at hok
        simp at hok
      · rw [writeFrame_mismatch d h w grp (by omega) h2] at hok; simp at hok
  · rintro ⟨h1, h2, h3⟩
    exact (writeFrame_success d h w grp h1 h2 h3).1

theorem writeFrame_fst_of_error {R : Type} (d : DoubleOps R) (h : HostLayout R)
    (w : DCDWriter) (grp : AtomicGroup R) (he : (w.writeFrame d h grp).2 ≠ none) :
    (w.writeFrame d h grp).1 = w := by
  by_cases h1 : w._nsteps ≤ w._current
  · rw [writeFrame_full d h w grp h1]
  · by_cases h2 : grp.size = w._natoms
    · by_cases h3 : grp.isPeriodic = false ∨ w._has_box = true
      · exact absurd (writeFrame_success d h w grp (by omega) h2 h3).1 he
      · obtain ⟨hb, hp⟩ := periodic_without_box w grp h3
        rw [writeFrame_periodic d h w grp (by omega) h2 hb hp]
    · rw [writeFrame_mismatch d h w grp (by omega) h2]

/-! ## The records of a frame -/

theorem coords_range_map {R : Type} (l : List (GCoord R)) (c : GCoord R) (f : GCoord R → R) :
    (List.range l.length).map (fun i => f (l.getD i c)) = l.map f := by
  apply List.ext_getElem
  · simp
  · intro i h1 h2
    have hi : i < l.length := by simpa using h1
    simp [List.getElem?_eq_getElem hi]

theorem floatBytes_length {R : Type} (h : HostLayout R) (data : List R) :
    (floatBytes h data).length = 4 * data.length := by
  induction data with
  | nil => rfl
  | cons v vs ih =>
    simp only [floatBytes, List.map_cons, List.flatten_cons, List.length_append,
      List.length_cons] at ih ⊢
    rw [ih]; simp [Word32.bytes]; omega

theorem doubleBytes_length {R : Type} (h : HostLayout R) (data : List R) :
    (doubleBytes h data).length = 8 * data.length := by
  induction data with
  | nil => rfl
  | cons v vs ih =>
    simp only [doubleBytes, List.map_cons, List.flatten_cons, List.length_append,
      List.length_cons] at ih ⊢
    rw [ih]; simp [Word64.bytes]; omega

theorem writeF77Line_eq_specRecord {R : Type} (h : HostLayout R) (ofs data : List Byte)
    (len : Nat) (hlen : len = data.length) :
    writeF77Line h ofs data len = ofs ++ specRecord h data := by
  subst hlen
  simp [writeF77Line, specRecord, List.append_assoc]

theorem coordRecord_eq {R : Type} (d : DoubleOps R) (h : HostLayout R) (ofs : List Byte)
    (grp : AtomicGroup R) (n : Nat) (f : GCoord R → R) (hn : grp.size = n)
    (hr : n * 4 < 4294967296) :
    writeF77Line h ofs
        (floatBytes h ((List.range n).map (fun i => f (grp.coordsAt d i))))
        (toUInt ((n : Int) * 4))
      = ofs ++ specCoordRecord h (grp.atoms.map f) := by
  subst hn
  have hmap : (List.range grp.size).map (fun i => f (grp.coordsAt d i)) = grp.atoms.map f :=
    coords_range_map grp.atoms (GCoord.origin d) f
  rw [hmap, writeF77Line_eq_specRecord]
  · simp [specCoordRecord, floatBytes, List.flatMap]
  · rw [floatBytes_length, List.length_map]
    have : toUInt ((grp.size : Int) * 4) = grp.size * 4 := by unfold toUInt; omega
    rw [this]; unfold AtomicGroup.size; omega

theorem writeFrame_ofs {R : Type} (d : DoubleOps R) (h : HostLayout R)
    (w : DCDWriter) (grp : AtomicGroup R) (h1 : w._current < w._nsteps)
    (h2 : grp.size = w._natoms) (h3 : grp.isPeriodic = false ∨ w._has_box = true)
    (hr : w._natoms * 4 < 4294967296) :
    (w.writeFrame d h grp).1._ofs = w._ofs ++ specFrame d h w._has_box grp := by
  have hg : ¬ ((!w._has_box && grp.isPeriodic) = true) := by
    rcases h3 with h3 | h3 <;> simp [h3]
  have h48 : toUInt (6 * 8) = (doubleBytes h
      [d.one, grp.periodicBox.x, d.one, grp.periodicBox.y, grp.periodicBox.z, d.one]).length := by
    rw [doubleBytes_length]; simp [toUInt]
  unfold DCDWriter.writeFrame
  rw [if_neg (by omega), if_neg (by simpa using h2), if_neg hg]
  cases hb : w._has_box
  · simp only [Bool.false_eq_true, if_false, specFrame, List.nil_append]
    rw [coordRecord_eq d h _ grp _ _ h2 hr, coordRecord_eq d h _ grp _ _ h2 hr,
      coordRecord_eq d h _ grp _ _ h2 hr]
    simp only [List.append_assoc]
  · simp only [if_true, specFrame, DCDWriter.writeBox]
    rw [coordRecord_eq d h _ grp _ _ h2 hr, coordRecord_eq d h _ grp _ _ h2 hr,
      coordRecord_eq d h _ grp _ _ h2 hr, writeF77Line_eq_specRecord h _ _ _ h48]
    simp only [List.append_assoc]

theorem specCoordRecord_length {R : Type} (h : HostLayout R) (values : List R) :
    (specCoordRecord h values).length = 4 + 4 * values.length + 4 := by
  have hp : (values.flatMap (fun v => (h.float32 v).bytes)).length = 4 * values.length := by
    have := floatBytes_length h values
    simpa [floatBytes, List.flatMap] using this
  unfold specCoordRecord specRecord
  rw [List.length_append, List.length_append, hp]
  simp only [Word32.bytes, List.length_cons, List.length_nil]

theorem writeFrames_all_succeed {R : Type} (d : DoubleOps R) (h : HostLayout R)
    (fs : List (AtomicGroup R)) (w : DCDWriter)
    (hcap : w._current + fs.length ≤ w._nsteps)
    (hfs : ∀ f ∈ fs, f.size = w._natoms ∧ (f.isPeriodic = false ∨ w._has_box = true)) :
    (w.writeFrames d h fs).2 = List.replicate fs.length none
    ∧ (w.writeFrames d h fs).1._current = w._current + fs.length
    ∧ (w.writeFrames d h fs).1._nsteps = w._nsteps
    ∧ (w.writeFrames d h fs).1._natoms = w._natoms
    ∧ (w.writeFrames d h fs).1._has_box = w._has_box := by
  induction fs generalizing w with
  | nil => simp [DCDWriter.writeFrames]
  | cons f fs ih =>
    simp only [List.length_cons] at hcap
    obtain ⟨hsz, hper⟩ := hfs f (List.mem_cons_self _ _)
    obtain ⟨hok, hna, hns, hhb, hcur⟩ := writeFrame_success d h w f (by omega) hsz hper
    have ih1 := ih (w.writeFrame d h f).1 (by rw [hcur, hns]; omega)
      (fun f1 hf1 => by
        rw [hna, hhb]; exact hfs f1 (List.mem_cons_of_mem _ hf1))
    obtain ⟨i1, i2, i3, i4, i5⟩ := ih1
    simp only [DCDWriter.writeFrames, List.length_cons, List.replicate_succ]
    refine ⟨by rw [i1, hok], by rw [i2, hcur]; omega, by rw [i3, hns], by rw [i4, hna],
      by rw [i5, hhb]⟩

/-! ## The claims -/

/-- C1 (idempotent resume, either setting of skip-first-frame): fails on the code with
skip-first-frame on.  Input files of 1 and 2 frames merged into an empty output give an
output of 1 frame (the one-frame file is counted as 1 frame but its only frame is
consumed by the skip); the second run with the same files then skips the first file and
writes the frame of the second file again, so the output grows from 1 to 2 frames. -/
theorem rerun_with_skip_first_frame_appends :
    (mergeRun gridDouble gridGroup skipFirstEnv ⟨[]⟩ ⟨[]⟩
        [fileOf 0 1, fileOf 10 2]).output.frames = [frameNo 11]
    ∧ (mergeRun gridDouble gridGroup skipFirstEnv ⟨[]⟩ ⟨[]⟩
        [fileOf 0 1, fileOf 10 2]).output.framesWritten = 1
    ∧ (mergeRun gridDouble gridGroup skipFirstEnv
        (mergeRun gridDouble gridGroup skipFirstEnv ⟨[]⟩ ⟨[]⟩ [fileOf 0 1, fileOf 10 2]).output
        ⟨[]⟩ [fileOf 0 1, fileOf 10 2]).output.framesWritten = 2
    ∧ (mergeRun gridDouble gridGroup skipFirstEnv
        (mergeRun gridDouble gridGroup skipFirstEnv ⟨[]⟩ ⟨[]⟩ [fileOf 0 1, fileOf 10 2]).output
        ⟨[]⟩ [fileOf 0 1, fileOf 10 2]).output.frames = [frameNo 11, frameNo 11] := by
  decide

/-- C2 (at the end of a run `previous_frames` is the sum of the adjusted frame counts):
fails on the code.  With skip-first-frame on and one input file of a single frame the
run ends with `previous_frames = 0` where the sum of the adjusted counts is 1; with
skip-first-frame off, an output holding 1 frame and one input file of 3 frames the run
ends with `previous_frames = 4` and 4 frames in the output where the sum is 3. -/
theorem end_of_run_counter_differs_from_adjusted_sum :
    ((mergeRun gridDouble gridGroup skipFirstEnv ⟨[]⟩ ⟨[]⟩ [fileOf 0 1]).previous_frames = 0
      ∧ specPreviousFrames true [fileOf 0 1] = 1)
    ∧ ((mergeRun gridDouble gridGroup defaultEnv ⟨fileOf 0 1⟩ ⟨[]⟩
          [fileOf 0 3]).previous_frames = 4
      ∧ (mergeRun gridDouble gridGroup defaultEnv ⟨fileOf 0 1⟩ ⟨[]⟩
          [fileOf 0 3]).output.framesWritten = 4
      ∧ specPreviousFrames false [fileOf 0 3] = 3) := by
  decide

/-- C3 (monotonic extension, skip-first-frame off): merging `A` into an empty output and
then merging `A` followed by `B` into the result ends in the same state as merging `A`
followed by `B` into an empty output in one run: the same output frames in the same
order, the same downsampled frames, the same counter.  The total frame count is within
the range of the `int` counters of the code, and the downsample rate is not zero when a
downsampled output is written (the C++ `%` is undefined there). -/
theorem merge_extension_eq_single_run {R : Type} (d : DoubleOps R) (g : GroupOps R)
    (e : MergeEnv) (ds : TrajectoryWriter R) (A B : List (List (AtomicGroup R)))
    (hskip : e.skip_first_frame = false)
    (_hrate : e.do_downsample = true → toUInt e.downsample_rate ≠ 0)
    (hrange : totalFrames (A ++ B) < 2147483648) :
    mergeRun d g e (mergeRun d g e ⟨[]⟩ ds A).output
        (mergeRun d g e ⟨[]⟩ ds A).output_downsample (A ++ B)
      = mergeRun d g e ⟨[]⟩ ds (A ++ B) :=
  mergeRun_resume d g e ds A B hskip hrange

/-- Instance of C3: a file of 7 frames merged alone, then with a file of 5 frames, with
a downsampled output of stride 3. -/
theorem merge_extension_eq_single_run_witness :
    (strideEnv 3).skip_first_frame = false
    ∧ ((strideEnv 3).do_downsample = true → toUInt (strideEnv 3).downsample_rate ≠ 0)
    ∧ totalFrames ([fileOf 0 7] ++ [fileOf 7 5]) < 2147483648
    ∧ mergeRun gridDouble gridGroup (strideEnv 3)
        (mergeRun gridDouble gridGroup (strideEnv 3) ⟨[]⟩ ⟨[]⟩ [fileOf 0 7]).output
        (mergeRun gridDouble gridGroup (strideEnv 3) ⟨[]⟩ ⟨[]⟩ [fileOf 0 7]).output_downsample
        ([fileOf 0 7] ++ [fileOf 7 5])
      = mergeRun gridDouble gridGroup (strideEnv 3) ⟨[]⟩ ⟨[]⟩ ([fileOf 0 7] ++ [fileOf 7 5]) :=
  ⟨by decide, by decide, by decide,
    merge_extension_eq_single_run gridDouble gridGroup (strideEnv 3) ⟨[]⟩ [fileOf 0 7]
      [fileOf 7 5] (by decide) (by decide) (by decide)⟩

/-- C4 (a file that grew since the previous merge is completed without duplicating a
frame): fails on the code.  With skip-first-frame off, a frame source in which
`seekFrame(n)` makes the next read return frame `n`, an output holding frame 0 of a file
(`t = 1`) and the file now holding frames 0, 1, 2 (`n = 3`), the merge appends frames
0, 1, 2: frame 0 is in the output twice and the output ends with 4 frames, not 3. -/
theorem grown_file_repeats_a_frame :
    (mergeRun gridDouble gridGroup defaultEnv ⟨[frameNo 0]⟩ ⟨[]⟩
        [[frameNo 0, frameNo 1, frameNo 2]]).output.frames
      = [frameNo 0, frameNo 0, frameNo 1, frameNo 2]
    ∧ (mergeRun gridDouble gridGroup defaultEnv ⟨[frameNo 0]⟩ ⟨[]⟩
        [[frameNo 0, frameNo 1, frameNo 2]]).output.framesWritten = 4 := by
  decide

/-- C5 (the downsampled output receives exactly the frames whose cumulative index `i`
has `target <= i < total` and `i mod stride = 0`): fails on the code when the existing
output ends inside a file.  With stride 2, an output holding frame 0 of a file
(`target = 1`) and the file now holding frames 0, 1, 2 (`total = 3`), the downsampled
output receives frame 1, where the indices of the claim are `[2]`. -/
theorem downsample_after_grown_file :
    (mergeRun gridDouble gridGroup (strideEnv 2) ⟨[frameNo 0]⟩ ⟨[]⟩
        [[frameNo 0, frameNo 1, frameNo 2]]).output_downsample.frames = [frameNo 1]
    ∧ specDownsampleIndices 1 3 2 = [2] := by
  decide

/-- The scenario of 7 and 5 frames with stride 3, as one run over both files: the
downsampled output receives the frames of cumulative index 0, 3, 6, 9. -/
theorem downsample_seven_five_single_run :
    (mergeRun gridDouble gridGroup (strideEnv 3) ⟨[]⟩ ⟨[]⟩
        [fileOf 0 7, fileOf 7 5]).output_downsample.frames
      = [frameNo 0, frameNo 3, frameNo 6, frameNo 9] := by
  decide

/-- The scenario of 7 and 5 frames with stride 3, as a run over the first file followed
by a run over both on the outputs of the first run: the downsampled output again holds
the frames of cumulative index 0, 3, 6, 9. -/
theorem downsample_seven_five_two_runs :
    (mergeRun gridDouble gridGroup (strideEnv 3)
        (mergeRun gridDouble gridGroup (strideEnv 3) ⟨[]⟩ ⟨[]⟩ [fileOf 0 7]).output
        (mergeRun gridDouble gridGroup (strideEnv 3) ⟨[]⟩ ⟨[]⟩ [fileOf 0 7]).output_downsample
        [fileOf 0 7, fileOf 7 5]).output_downsample.frames
      = [frameNo 0, frameNo 3, frameNo 6, frameNo 9] := by
  decide

/-- C7 as stated ("for every writer state ... the atom-count-mismatch error and not any
other") fails: a writer of capacity 1 that has written its one frame answers a two-atom
group, where it declares one atom, with the frame-count error, the first check of
`writeFrame`. -/
theorem atom_count_mismatch_on_full_writer :
    twoAtoms.size ≠ ((freshWriter 1 false).writeFrame gridDouble gridHost oneAtom).1._natoms
    ∧ (((freshWriter 1 false).writeFrame gridDouble gridHost oneAtom).1.writeFrame
          gridDouble gridHost twoAtoms).2
        = some ⟨"Attempting to write more frames than requested."⟩
    ∧ (((freshWriter 1 false).writeFrame gridDouble gridHost oneAtom).1.writeFrame
          gridDouble gridHost twoAtoms).2
        ≠ some ⟨"Frame group atom count mismatch"⟩ := by
  decide

/-- C7 amended: for every writer and every group whose atom count differs from the
declared atom count, `writeFrame` fails and leaves the writer as it was; the error is
"Frame group atom count mismatch" when fewer frames than the declared capacity have
been written, and the frame-count error when the capacity is used up. -/
theorem writeFrame_atom_count_mismatch {R : Type} (d : DoubleOps R) (h : HostLayout R)
    (w : DCDWriter) (grp : AtomicGroup R) (hsize : grp.size ≠ w._natoms) :
    (w._current < w._nsteps →
        w.writeFrame d h grp = (w, some ⟨"Frame group atom count mismatch"⟩))
    ∧ (w._nsteps ≤ w._current →
        w.writeFrame d h grp
          = (w, some ⟨"Attempting to write more frames than requested."⟩)) :=
  ⟨fun h1 => writeFrame_mismatch d h w grp h1 hsize, fun h1 => writeFrame_full d h w grp h1⟩

/-- Instance of C7 amended: a two-atom group offered to a writer declared for one atom
that has room for a frame. -/
theorem writeFrame_atom_count_mismatch_witness :
    twoAtoms.size ≠ (freshWriter 1 false)._natoms
    ∧ (freshWriter 1 false).writeFrame gridDouble gridHost twoAtoms
        = (freshWriter 1 false, some ⟨"Frame group atom count mismatch"⟩) :=
  ⟨by decide,
    (writeFrame_atom_count_mismatch gridDouble gridHost (freshWriter 1 false) twoAtoms
      (by decide)).1 (by decide)⟩

/-- C8 as stated fails: on a writer of capacity 1 without the box flag, a group of the
declared atom count that carries periodic box information is refused with the
periodic-data error, in the first call and again in the second; no call succeeds and
the second does not fail with the frame-count error. -/
theorem periodic_frames_of_declared_size_fail :
    oneAtomPeriodic.size = (freshWriter 1 false)._natoms
    ∧ ((freshWriter 1 false).writeFrames gridDouble gridHost
          [oneAtomPeriodic, oneAtomPeriodic]).2
        = [some ⟨"Frame has periodic info but none was requested to be written to the DCD."⟩,
           some ⟨"Frame has periodic info but none was requested to be written to the DCD."⟩]
    ∧ ((freshWriter 1 false).writeFrames gridDouble gridHost
          [oneAtomPeriodic, oneAtomPeriodic]).1._current = 0 := by
  decide

/-- C8 amended: for every writer with declared capacity `N` and no frame written yet,
`N` successive `writeFrame` calls with groups of the declared atom count, none of them
carrying periodic box information unless the writer has the box flag, all succeed, and
the call after them fails with the frame-count error, whatever group it is given. -/
theorem writeFrames_capacity {R : Type} (d : DoubleOps R) (h : HostLayout R)
    (w : DCDWriter) (fs : List (AtomicGroup R)) (hcur : w._current = 0)
    (hlen : fs.length = w._nsteps)
    (hfs : ∀ f ∈ fs, f.size = w._natoms ∧ (f.isPeriodic = false ∨ w._has_box = true)) :
    (w.writeFrames d h fs).2 = List.replicate w._nsteps none
    ∧ ∀ grp : AtomicGroup R,
        ((w.writeFrames d h fs).1.writeFrame d h grp).2
          = some ⟨"Attempting to write more frames than requested."⟩ := by
  obtain ⟨i1, i2, i3, _, _⟩ := writeFrames_all_succeed d h fs w (by omega) hfs
  refine ⟨by rw [i1, hlen], fun grp => ?_⟩
  rw [writeFrame_full d h _ grp (by rw [i2, i3]; omega)]

/-- Instance of C8 amended: a writer of capacity 2 with the box flag takes two one-atom
groups and refuses a third. -/
theorem writeFrames_capacity_witness :
    (freshWriter 2 true)._current = 0
    ∧ [oneAtom, oneAtomPeriodic].length = (freshWriter 2 true)._nsteps
    ∧ ((freshWriter 2 true).writeFrames gridDouble gridHost [oneAtom, oneAtomPeriodic]).2
        = [none, none]
    ∧ (((freshWriter 2 true).writeFrames gridDouble gridHost
          [oneAtom, oneAtomPeriodic]).1.writeFrame gridDouble gridHost oneAtom).2
        = some ⟨"Attempting to write more frames than requested."⟩ :=
  ⟨by decide, by decide,
    (writeFrames_capacity gridDouble gridHost (freshWriter 2 true) [oneAtom, oneAtomPeriodic]
      (by decide) (by decide) (by decide)).1,
    (writeFrames_capacity gridDouble gridHost (freshWriter 2 true) [oneAtom, oneAtomPeriodic]
      (by decide) (by decide) (by decide)).2 oneAtom⟩

/-- C9: `writeFrame` succeeds if and only if fewer frames than the declared capacity
have been written, the group has the declared atom count, and the group carries no
periodic box information or the writer has the box flag; when it does not succeed, the
output stream, the frame counter and every other member of the writer are as before
the call. -/
theorem writeFrame_succeeds_iff {R : Type} (d : DoubleOps R)
    (h : HostLayout R) (w : DCDWriter) (grp : AtomicGroup R) :
    ((w.writeFrame d h grp).2 = none
      ↔ (w._current < w._nsteps ∧ grp.size = w._natoms
          ∧ (grp.isPeriodic = false ∨ w._has_box = true)))
    ∧ ((w.writeFrame d h grp).2 ≠ none →
        (w.writeFrame d h grp).1._ofs = w._ofs
        ∧ (w.writeFrame d h grp).1._current = w._current
        ∧ (w.writeFrame d h grp).1 = w) :=
  ⟨writeFrame_ok_iff d h w grp, fun he => by
    rw [writeFrame_fst_of_error d h w grp he]; exact ⟨rfl, rfl, rfl⟩⟩

/-- Instance of C9: a periodic group offered to a writer without the box flag is
refused and the writer is unchanged. -/
theorem writeFrame_succeeds_iff_witness :
    ((freshWriter 1 false).writeFrame gridDouble gridHost oneAtomPeriodic).2 ≠ none
    ∧ ((freshWriter 1 false).writeFrame gridDouble gridHost oneAtomPeriodic).1._ofs
        = (freshWriter 1 false)._ofs
    ∧ ((freshWriter 1 false).writeFrame gridDouble gridHost oneAtomPeriodic).1._current
        = (freshWriter 1 false)._current
    ∧ ((freshWriter 1 false).writeFrame gridDouble gridHost oneAtomPeriodic).1
        = freshWriter 1 false :=
  ⟨by decide,
    (writeFrame_succeeds_iff gridDouble gridHost (freshWriter 1 false) oneAtomPeriodic).2
      (by decide)⟩

/-- C10: a successful `writeFrame` on a writer with atom count `N` (with `4 N` within
the range of the `unsigned int` record length) appends to the stream exactly
`specFrame`: the box record if and only if the writer has the box flag, then the record
of the `N` x coordinates, the record of the `N` y coordinates and the record of the
`N` z coordinates, in atom order, four bytes per value, every record being its length
in four bytes, the payload, and the same four bytes again (each coordinate record is
`4 + 4 N + 4` bytes long); the frame counter grows by exactly 1. -/
theorem writeFrame_appends_one_frame {R : Type} (d : DoubleOps R) (h : HostLayout R)
    (w : DCDWriter) (grp : AtomicGroup R) (hr : w._natoms * 4 < 4294967296)
    (hok : (w.writeFrame d h grp).2 = none) :
    (w.writeFrame d h grp).1._ofs = w._ofs ++ specFrame d h w._has_box grp
    ∧ grp.atoms.length = w._natoms
    ∧ (specCoordRecord h (grp.atoms.map (fun c => c.x))).length = 4 + 4 * w._natoms + 4
    ∧ (specCoordRecord h (grp.atoms.map (fun c => c.y))).length = 4 + 4 * w._natoms + 4
    ∧ (specCoordRecord h (grp.atoms.map (fun c => c.z))).length = 4 + 4 * w._natoms + 4
    ∧ (w.writeFrame d h grp).1._current = w._current + 1 := by
  obtain ⟨h1, h2, h3⟩ := (writeFrame_ok_iff d h w grp).mp hok
  have hlen : grp.atoms.length = w._natoms := h2
  refine ⟨writeFrame_ofs d h w grp h1 h2 h3 hr, hlen, ?_, ?_, ?_,
    (writeFrame_success d h w grp h1 h2 h3).2.2.2.2⟩ <;>
  rw [specCoordRecord_length, List.length_map, hlen]

/-- Instance of C10: a one-atom periodic group written by a writer with the box
flag. -/
theorem writeFrame_appends_one_frame_witness :
    (freshWriter 2 true)._natoms * 4 < 4294967296
    ∧ ((freshWriter 2 true).writeFrame gridDouble gridHost oneAtomPeriodic).2 = none
    ∧ ((freshWriter 2 true).writeFrame gridDouble gridHost oneAtomPeriodic).1._ofs
        = (freshWriter 2 true)._ofs
          ++ specFrame gridDouble gridHost (freshWriter 2 true)._has_box oneAtomPeriodic
    ∧ ((freshWriter 2 true).writeFrame gridDouble gridHost oneAtomPeriodic).1._current
        = (freshWriter 2 true)._current + 1 :=
  ⟨by decide, by decide,
    (writeFrame_appends_one_frame gridDouble gridHost (freshWriter 2 true) oneAtomPeriodic
      (by decide) (by decide)).1,
    (writeFrame_appends_one_frame gridDouble gridHost (freshWriter 2 true) oneAtomPeriodic
      (by decide) (by decide)).2.2.2.2.2⟩


/-! ## The box record and the header -/

theorem writeBox_ofs {R : Type} (d : DoubleOps R) (h : HostLayout R) (w : DCDWriter)
    (box : GCoord R) :
    (w.writeBox d h box)._ofs
      = w._ofs ++ specRecord h (doubleBytes h [d.one, box.x, d.one, box.y, box.z, d.one]) := by
  have h48 : toUInt (6 * 8)
      = (doubleBytes h [d.one, box.x, d.one, box.y, box.z, d.one]).length := by
    rw [doubleBytes_length]; simp [toUInt]
  unfold DCDWriter.writeBox
  simp only
  rw [writeF77Line_eq_specRecord h _ _ _ h48]

theorem specRecord_length {R : Type} (h : HostLayout R) (payload : List Byte) :
    (specRecord h payload).length = 4 + payload.length + 4 := by
  unfold specRecord
  rw [List.length_append, List.length_append]
  simp only [Word32.bytes, List.length_cons, List.length_nil]

theorem specFrame_length {R : Type} (d : DoubleOps R) (h : HostLayout R) (b : Bool)
    (grp : AtomicGroup R) :
    (specFrame d h b grp).length = frameLen grp.atoms.length b := by
  unfold specFrame frameLen
  simp only [List.length_append, specCoordRecord_length, List.length_map]
  cases b
  · simp; omega
  · simp [specRecord_length, doubleBytes_length]; omega

theorem bufferString_length (beyond : Nat → Char) (count : Nat) :
    (bufferString beyond count).length = count := by
  simp [bufferString]

theorem fixStringSize_length (beyond : Nat → Char) (s : String) (n : Nat)
    (hn : n < 2147483648) : (fixStringSize beyond s n).length = n := by
  unfold fixStringSize
  simp only
  split_ifs with h1 h2
  · have hi : toInt (toUInt ((n : Int) - (s.length : Int))) = ((n - s.length : Nat) : Int) := by
      have : toUInt ((n : Int) - (s.length : Int)) = n - s.length := by
        unfold toUInt; omega
      rw [this, toInt_small (by omega)]
    rw [hi, String.length_append]
    have hc : (((n - s.length : Nat) : Int) % 18446744073709551616).toNat = n - s.length := by
      omega
    rw [hc]
    simp only [String.length, bufferString_length]
    change s.data.length + (n - s.data.length) = n
    have h1' : s.data.length < n := h1
    omega
  · have h2' : n < s.data.length := h2
    simp only [String.length, List.length_take]
    omega
  · omega

theorem fixStringSize_short (beyond : Nat → Char) (s : String) (n : Nat)
    (hn : n < 2147483648) (hs : s.length < n) :
    fixStringSize beyond s n = s ++ String.mk (bufferString beyond (n - s.length)) := by
  have hi : toInt (toUInt ((n : Int) - (s.length : Int))) = ((n - s.length : Nat) : Int) := by
    have : toUInt ((n : Int) - (s.length : Int)) = n - s.length := by
      unfold toUInt; omega
    rw [this, toInt_small (by omega)]
  have hc : (((n - s.length : Nat) : Int) % 18446744073709551616).toNat = n - s.length := by
    omega
  unfold fixStringSize
  simp only
  rw [if_pos hs, hi, hc]

/-- The 80 bytes `writeHeader` copies for a title are the first 80 characters of the
title, followed for a shorter title by the characters of the padding. -/
theorem titleBytes_eq_specTitleField (beyond : Nat → Char) (t : String) :
    titleBytes (fixStringSize beyond t 80) = specTitleField beyond t := by
  unfold titleBytes specTitleField
  have hlen : t.length = t.data.length := rfl
  by_cases h1 : t.length < 80
  · rw [fixStringSize_short beyond t 80 (by decide) h1, String.data_append]
    have h80 : ((t.data ++ (String.mk (bufferString beyond (80 - t.length))).data).map
        charByte).length ≤ 80 := by
      simp only [List.length_map, List.length_append, bufferString_length]
      omega
    rw [List.take_of_length_le h80, List.map_append,
      List.take_of_length_le (by omega : t.data.length ≤ 80)]
  · have hb : 80 - t.length = 0 := by omega
    rw [hb]
    have hnil : (bufferString beyond 0).map charByte = [] := rfl
    rw [hnil, List.append_nil]
    by_cases h2 : t.length > 80
    · have hf : fixStringSize beyond t 80 = String.mk (t.data.take 80) := by
        unfold fixStringSize
        simp only
        rw [if_neg h1, if_pos h2]
      rw [hf]
      apply List.take_of_length_le
      simp only [List.length_map, List.length_take]
      omega
    · have hf : fixStringSize beyond t 80 = t := by
        unfold fixStringSize
        simp only
        rw [if_neg h1, if_neg h2]
      rw [hf, List.take_of_length_le (by omega : t.data.length ≤ 80)]
      apply List.take_of_length_le
      simp only [List.length_map]
      omega

theorem specTitleField_length (beyond : Nat → Char) (t : String) :
    (specTitleField beyond t).length = 80 := by
  unfold specTitleField
  have hlen : t.length = t.data.length := rfl
  simp only [List.length_append, List.length_map, List.length_take, bufferString_length]
  omega

theorem specTitleField_take (beyond : Nat → Char) (t : String) :
    (specTitleField beyond t).take (min 80 t.length) = (t.data.take 80).map charByte := by
  unfold specTitleField
  have hlen : t.length = t.data.length := rfl
  apply List.take_left'
  simp only [List.length_map, List.length_take]
  omega

theorem titleBytes_length (beyond : Nat → Char) (t : String) :
    (titleBytes (fixStringSize beyond t 80)).length = 80 := by
  have h := fixStringSize_length beyond t 80 (by decide)
  unfold titleBytes
  rw [List.length_take, List.length_map]
  have h' : (fixStringSize beyond t 80).data.length = 80 := h
  omega

theorem titles_flatten_length (beyond : Nat → Char) (titles : List String) :
    ((titles.map (fun t => titleBytes (fixStringSize beyond t 80))).flatten).length
      = 80 * titles.length := by
  induction titles with
  | nil => rfl
  | cons t ts ih =>
    simp only [List.map_cons, List.flatten_cons, List.length_append, List.length_cons, ih,
      titleBytes_length]
    omega

theorem controlBlock_eq {R : Type} (h : HostLayout R) (w : DCDWriter) :
    controlBlock h w
      = [h.uint32 w._nsteps, h.uint32 1, h.uint32 1, h.uint32 w._nsteps, h.uint32 0,
         h.uint32 0, h.uint32 0, h.uint32 (toUInt ((w._natoms : Int) * 3 - 6)), h.uint32 0,
         w._timestep, h.uint32 (if w._has_box then 1 else 0), h.uint32 0, h.uint32 0,
         h.uint32 0, h.uint32 0, h.uint32 0, h.uint32 0, h.uint32 0, h.uint32 0,
         h.uint32 27] := by
  rfl

theorem controlBlock_bytes_length {R : Type} (h : HostLayout R) (w : DCDWriter) :
    (((controlBlock h w).map Word32.bytes).flatten).length = 80 := by
  rw [controlBlock_eq]
  rfl

theorem titleBlock_length {R : Type} (h : HostLayout R) (beyond : Nat → Char)
    (w : DCDWriter) : (titleBlock h beyond w).length = 4 + 80 * w._titles.length := by
  unfold titleBlock
  rw [List.length_append, titles_flatten_length]
  simp only [Word32.bytes, List.length_cons, List.length_nil]

theorem writeHeader_ofs {R : Type} (h : HostLayout R) (beyond : Nat → Char) (w : DCDWriter)
    (hk : 4 + 80 * w._titles.length < 4294967296) :
    (w.writeHeader h beyond)._ofs
      = w._ofs ++ specRecord h (((controlBlock h w).map Word32.bytes).flatten)
          ++ specRecord h (titleBlock h beyond w)
          ++ specRecord h (h.uint32 w._natoms).bytes := by
  have h80 : toUInt (20 * 4) = (((controlBlock h w).map Word32.bytes).flatten).length := by
    rw [controlBlock_bytes_length]; simp [toUInt]
  have hsize : toUInt (4 + 80 * (w._titles.length : Int)) = (titleBlock h beyond w).length := by
    rw [titleBlock_length]; unfold toUInt; omega
  have h4 : toUInt (1 * 4) = (h.uint32 w._natoms).bytes.length := by
    simp [toUInt, Word32.bytes]
  unfold DCDWriter.writeHeader
  simp only
  rw [writeF77Line_eq_specRecord h _ _ _ h80, writeF77Line_eq_specRecord h _ _ _ hsize,
    writeF77Line_eq_specRecord h _ _ _ h4]

theorem writeHeader_length {R : Type} (h : HostLayout R) (beyond : Nat → Char)
    (w : DCDWriter) (hk : 4 + 80 * w._titles.length < 4294967296) :
    (w.writeHeader h beyond)._ofs.length = w._ofs.length + headerLen w._titles.length := by
  rw [writeHeader_ofs h beyond w hk]
  simp only [List.length_append, specRecord_length, controlBlock_bytes_length,
    titleBlock_length, headerLen, Word32.bytes, List.length_cons, List.length_nil]
  omega

theorem writeHeader_fields {R : Type} (h : HostLayout R) (beyond : Nat → Char)
    (w : DCDWriter) :
    (w.writeHeader h beyond)._natoms = w._natoms
    ∧ (w.writeHeader h beyond)._has_box = w._has_box
    ∧ (w.writeHeader h beyond)._current = w._current := by
  unfold DCDWriter.writeHeader
  exact ⟨rfl, rfl, rfl⟩


/-- A sequence of `writeFrame` calls lengthens the stream by one frame for every call
that succeeds and by nothing for a call that fails; the frame counter counts the
calls that succeed. -/
theorem writeFrames_length {R : Type} (d : DoubleOps R) (h : HostLayout R)
    (fs : List (AtomicGroup R)) (w : DCDWriter) (hN : w._natoms * 4 < 4294967296) :
    (w.writeFrames d h fs).1._ofs.length
        = w._ofs.length + ((w.writeFrames d h fs).2.count none) * frameLen w._natoms w._has_box
    ∧ (w.writeFrames d h fs).1._current = w._current + (w.writeFrames d h fs).2.count none := by
  induction fs generalizing w with
  | nil => simp [DCDWriter.writeFrames]
  | cons f fs ih =>
    simp only [DCDWriter.writeFrames]
    by_cases hok : (w.writeFrame d h f).2 = none
    · obtain ⟨h1, h2, h3⟩ := (writeFrame_ok_iff d h w f).mp hok
      obtain ⟨_, hna, _, hhb, hcur⟩ := writeFrame_success d h w f h1 h2 h3
      have hofs := writeFrame_ofs d h w f h1 h2 h3 hN
      obtain ⟨i1, i2⟩ := ih (w.writeFrame d h f).1 (by rw [hna]; exact hN)
      have hlen : f.atoms.length = w._natoms := h2
      rw [i1, i2, hna, hhb, hcur, hofs, List.length_append, specFrame_length, hlen, hok]
      simp only [List.count_cons_self]
      constructor
      · rw [Nat.add_mul]; omega
      · omega
    · have hst := writeFrame_fst_of_error d h w f hok
      obtain ⟨i1, i2⟩ := ih (w.writeFrame d h f).1 (by rw [hst]; exact hN)
      rw [i1, i2, hst]
      have hne : (none : Option RuntimeError) ≠ (w.writeFrame d h f).2 := fun hc => hok hc.symm
      simp only [List.count_cons_of_ne hne]
      exact ⟨trivial, trivial⟩

theorem frameLen_pos (N : Nat) (b : Bool) : 0 < frameLen N b := by
  unfold frameLen; omega

theorem headerLen_pos (k : Nat) : 0 < headerLen k := by
  unfold headerLen; omega

theorem length_eq_zero_iff_empty (s : String) : s.length = 0 ↔ s = "" := by
  cases s with
  | mk l =>
    constructor
    · intro hl
      have : l = [] := List.length_eq_zero.mp hl
      subst this; rfl
    · intro hs
      rw [hs]; rfl

/-! ## The claims on the box record, the header and the file length -/

/-- C11 as stated ("six 4-byte single-precision values, a 24-byte payload") fails: the
box record of a writer with the box flag for the box `(10, 20, 30)` is 56 bytes long,
a 48-byte payload between two length words holding 48, not the 32 bytes of a 24-byte
payload. -/
theorem box_record_is_not_24_bytes :
    ((freshWriter 1 true).writeBox gridDouble gridHost ⟨10, 20, 30⟩)._ofs.length = 4 + 48 + 4
    ∧ ((freshWriter 1 true).writeBox gridDouble gridHost ⟨10, 20, 30⟩)._ofs.length
        ≠ 4 + 24 + 4
    ∧ ((freshWriter 1 true).writeBox gridDouble gridHost ⟨10, 20, 30⟩)._ofs.take 4
        = (gridHost.uint32 48).bytes := by
  decide

/-- C11 amended: for every writer and every box, the record written by `writeBox`
carries six 8-byte double-precision values (a 48-byte payload), in the order 1.0,
box x, 1.0, box y, box z, 1.0, framed by its length before and after; nothing else
of the writer changes. -/
theorem writeBox_record_of_six_doubles {R : Type} (d : DoubleOps R) (h : HostLayout R)
    (w : DCDWriter) (box : GCoord R) :
    (w.writeBox d h box)._ofs
      = w._ofs ++ specRecord h
          ((h.float64 d.one).bytes ++ (h.float64 box.x).bytes ++ (h.float64 d.one).bytes
            ++ (h.float64 box.y).bytes ++ (h.float64 box.z).bytes ++ (h.float64 d.one).bytes)
    ∧ ((h.float64 d.one).bytes ++ (h.float64 box.x).bytes ++ (h.float64 d.one).bytes
          ++ (h.float64 box.y).bytes ++ (h.float64 box.z).bytes
          ++ (h.float64 d.one).bytes).length = 48
    ∧ (∀ v : R, (h.float64 v).bytes.length = 8)
    ∧ (w.writeBox d h box)._current = w._current := by
  refine ⟨?_, ?_, fun v => rfl, rfl⟩
  · rw [writeBox_ofs]
    simp [doubleBytes, List.append_assoc]
  · simp [Word64.bytes]

/-- C12 (`fixStringSize` pads a short string with spaces): fails on the code.  For the
two-character string `ab` and `n = 4` the result is `ab`, a space and a NUL character,
where the claim has `ab` and two spaces; for `n = 6` the space and the NUL are
followed by the two characters that lie behind the literal `" "` in memory. -/
theorem fixStringSize_pads_with_nul :
    (fixStringSize xMemory "ab" 4).data
        = [Char.ofNat 97, Char.ofNat 98, Char.ofNat 32, Char.ofNat 0]
    ∧ (specFixStringSize "ab" 4).data
        = [Char.ofNat 97, Char.ofNat 98, Char.ofNat 32, Char.ofNat 32]
    ∧ fixStringSize xMemory "ab" 4 ≠ specFixStringSize "ab" 4
    ∧ (fixStringSize xMemory "ab" 6).data
        = [Char.ofNat 97, Char.ofNat 98, Char.ofNat 32, Char.ofNat 0, Char.ofNat 120,
           Char.ofNat 120] := by
  decide

/-- C13: for every writer with `k` titles (`4 + 80 k` within the range of the
`unsigned int` record length) `writeHeader` appends exactly three framed records:
the control block of twenty 4-byte words, 80 bytes, with the declared frame count in
word 0, the timestep in word 9, the box flag in word 10 and 27 in word 19; the title
record, the 4-byte count `k` followed by one field of exactly 80 bytes for each of the
`k` titles, in order, each field holding the first 80 characters of its title and then
the padding; and the record of the 4-byte atom count; `112 + 80 k` bytes in all. -/
theorem writeHeader_three_records {R : Type} (h : HostLayout R) (beyond : Nat → Char)
    (w : DCDWriter) (hk : 4 + 80 * w._titles.length < 4294967296) :
    (w.writeHeader h beyond)._ofs
      = w._ofs
        ++ specRecord h
            ((specControlWords h w._nsteps w._natoms w._timestep w._has_box).flatMap
              Word32.bytes)
        ++ specRecord h
            ((h.uint32 w._titles.length).bytes ++ w._titles.flatMap (specTitleField beyond))
        ++ specRecord h (h.uint32 w._natoms).bytes
    ∧ (specControlWords h w._nsteps w._natoms w._timestep w._has_box).length = 20
    ∧ ((specControlWords h w._nsteps w._natoms w._timestep w._has_box).flatMap
          Word32.bytes).length = 80
    ∧ (specControlWords h w._nsteps w._natoms w._timestep w._has_box)[0]?
        = some (h.uint32 w._nsteps)
    ∧ (specControlWords h w._nsteps w._natoms w._timestep w._has_box)[9]?
        = some w._timestep
    ∧ (specControlWords h w._nsteps w._natoms w._timestep w._has_box)[10]?
        = some (h.uint32 (if w._has_box then 1 else 0))
    ∧ (specControlWords h w._nsteps w._natoms w._timestep w._has_box)[19]?
        = some (h.uint32 27)
    ∧ (w._titles.map (specTitleField beyond)).length = w._titles.length
    ∧ (∀ t : String, (specTitleField beyond t).length = 80
        ∧ (specTitleField beyond t).take (min 80 t.length) = (t.data.take 80).map charByte)
    ∧ (h.uint32 w._natoms).bytes.length = 4
    ∧ (w.writeHeader h beyond)._ofs.length = w._ofs.length + (112 + 80 * w._titles.length) := by
  have hcount : toUInt (w._titles.length : Int) = w._titles.length := by
    unfold toUInt; omega
  have htitles : w._titles.map (fun t => titleBytes (fixStringSize beyond t 80))
      = w._titles.map (specTitleField beyond) :=
    List.map_congr_left (fun t _ => titleBytes_eq_specTitleField beyond t)
  have hwords : controlBlock h w
      = specControlWords h w._nsteps w._natoms w._timestep w._has_box := controlBlock_eq h w
  refine ⟨?_, rfl, ?_, rfl, rfl, rfl, rfl, List.length_map _ _,
    fun t => ⟨specTitleField_length beyond t, specTitleField_take beyond t⟩, rfl, ?_⟩
  · rw [writeHeader_ofs h beyond w hk]
    unfold titleBlock
    rw [hcount, htitles, hwords]
    simp only [List.flatMap]
  · have hb := controlBlock_bytes_length h w
    rw [hwords] at hb
    simpa only [List.flatMap] using hb
  · rw [writeHeader_length h beyond w hk]; rfl

/-- Instance of C13: a writer with the single title `hello`; the title field begins
with the five letters, followed by the space and the NUL of the padding. -/
theorem writeHeader_three_records_witness :
    4 + 80 * (titledWriter ["hello"] true)._titles.length < 4294967296
    ∧ (specTitleField xMemory "hello").take 7 = [104, 101, 108, 108, 111, 32, 0]
    ∧ ((titledWriter ["hello"] true).writeHeader gridHost xMemory)._ofs
        = (titledWriter ["hello"] true)._ofs
          ++ specRecord gridHost
              ((specControlWords gridHost 5 1 ⟨0, 0, 128, 63⟩ true).flatMap Word32.bytes)
          ++ specRecord gridHost
              ((gridHost.uint32 1).bytes ++ ["hello"].flatMap (specTitleField xMemory))
          ++ specRecord gridHost (gridHost.uint32 1).bytes :=
  ⟨by decide, by decide,
    (writeHeader_three_records gridHost xMemory (titledWriter ["hello"] true)
      (by decide)).1⟩

/-- C14: for a writer with atom count `N`, box flag `b` and `k` titles whose stream
is empty and whose frame counter is 0, after `writeHeader` and any sequence of
`writeFrame` calls of which `m` succeed the stream is `headerLen k + m * frameLen N b`
bytes long and the frame counter is `m`; `headerLen` and `frameLen` are positive, so
`m` is recovered from the length as `(length - headerLen k) / frameLen N b`.  The
record lengths `4 N` and `4 + 80 k` are within the range of `unsigned int`. -/
theorem stream_length_counts_frames {R : Type} (d : DoubleOps R) (h : HostLayout R)
    (beyond : Nat → Char) (w : DCDWriter) (fs : List (AtomicGroup R))
    (hN : w._natoms * 4 < 4294967296) (hk : 4 + 80 * w._titles.length < 4294967296)
    (hofs : w._ofs = []) (hcur : w._current = 0) :
    ((w.writeHeader h beyond).writeFrames d h fs).1._ofs.length
        = headerLen w._titles.length
          + (((w.writeHeader h beyond).writeFrames d h fs).2.count none)
            * frameLen w._natoms w._has_box
    ∧ ((w.writeHeader h beyond).writeFrames d h fs).1._current
        = ((w.writeHeader h beyond).writeFrames d h fs).2.count none
    ∧ 0 < headerLen w._titles.length
    ∧ 0 < frameLen w._natoms w._has_box
    ∧ (((w.writeHeader h beyond).writeFrames d h fs).1._ofs.length
          - headerLen w._titles.length) / frameLen w._natoms w._has_box
        = ((w.writeHeader h beyond).writeFrames d h fs).1._current := by
  obtain ⟨hna, hhb, hc⟩ := writeHeader_fields h beyond w
  obtain ⟨i1, i2⟩ := writeFrames_length d h fs (w.writeHeader h beyond) (by rw [hna]; exact hN)
  have hlen := writeHeader_length h beyond w hk
  rw [hofs, List.length_nil, Nat.zero_add] at hlen
  rw [hlen, hna, hhb] at i1
  rw [hc, hcur, Nat.zero_add] at i2
  refine ⟨i1, i2, headerLen_pos _, frameLen_pos _ _, ?_⟩
  rw [i1, i2, Nat.add_sub_cancel_left, Nat.mul_div_cancel _ (frameLen_pos _ _)]

/-- Instance of C14: a writer with the box flag and one title takes two one-atom
frames and refuses a two-atom group between them. -/
theorem stream_length_counts_frames_witness :
    ((titledWriter ["hello"] true)._natoms * 4 < 4294967296
      ∧ 4 + 80 * (titledWriter ["hello"] true)._titles.length < 4294967296
      ∧ (titledWriter ["hello"] true)._ofs = []
      ∧ (titledWriter ["hello"] true)._current = 0)
    ∧ (((titledWriter ["hello"] true).writeHeader gridHost xMemory).writeFrames
          gridDouble gridHost [oneAtom, twoAtoms, oneAtomPeriodic]).1._ofs.length
        = headerLen 1
          + ((((titledWriter ["hello"] true).writeHeader gridHost xMemory).writeFrames
              gridDouble gridHost [oneAtom, twoAtoms, oneAtomPeriodic]).2.count none)
            * frameLen 1 true :=
  ⟨by decide,
    (stream_length_counts_frames gridDouble gridHost xMemory (titledWriter ["hello"] true)
      [oneAtom, twoAtoms, oneAtomPeriodic] (by decide) (by decide) (by decide)
      (by decide)).1⟩

/-- C15: `postConditions` rejects the options exactly when the full centering
selection is not empty and the xy-centering or the z-centering selection is not empty;
it accepts every other combination, among them the xy and z selections together
without a full selection, and no selection at all. -/
theorem postConditions_rejects_iff (e : MergeEnv) :
    (postConditions e = false
      ↔ (e.center_selection ≠ ""
          ∧ (e.xy_center_selection ≠ "" ∨ e.z_center_selection ≠ "")))
    ∧ (postConditions e = true
      ↔ ¬ (e.center_selection ≠ ""
          ∧ (e.xy_center_selection ≠ "" ∨ e.z_center_selection ≠ "")))
    ∧ (e.center_selection = "" → postConditions e = true)
    ∧ (e.xy_center_selection = "" → e.z_center_selection = "" → postConditions e = true) := by
  have hc := length_eq_zero_iff_empty e.center_selection
  have hx := length_eq_zero_iff_empty e.xy_center_selection
  have hz := length_eq_zero_iff_empty e.z_center_selection
  unfold postConditions
  by_cases h1 : e.center_selection = "" <;> by_cases h2 : e.xy_center_selection = "" <;>
    by_cases h3 : e.z_center_selection = "" <;>
    simp [h1, h2, h3, hc.mpr, hx.mpr, hz.mpr, mt hc.mp, mt hx.mp, mt hz.mp]

/-- Instance of C15: the xy and the z selection together are accepted, a full
selection together with a z selection is rejected. -/
theorem postConditions_rejects_iff_witness :
    postConditions { defaultEnv with xy_center_selection := "a", z_center_selection := "b" }
        = true
    ∧ postConditions { defaultEnv with center_selection := "a", z_center_selection := "b" }
        = false :=
  ⟨((postConditions_rejects_iff
      { defaultEnv with xy_center_selection := "a", z_center_selection := "b" }).2.2.1 rfl),
    ((postConditions_rejects_iff
      { defaultEnv with center_selection := "a", z_center_selection := "b" }).1).mpr
      (by decide)⟩

/-! ## `AmberNetcdf::coords` -/

theorem coordsLoop_eq {R : Type} (d : DoubleOps R) (t : AmberNetcdf R)
    (hN : t._natoms + 3 ≤ 4294967296) (fuel j : Nat) (res : List (GCoord R))
    (hfuel : (t._natoms + 2) / 3 - j ≤ fuel) :
    AmberNetcdf.coordsLoop d t fuel (3 * j) res
      = res ++ (List.range' j ((t._natoms + 2) / 3 - j)).map
          (fun i => ⟨t.coordData d (3 * i), t.coordData d (3 * i + 1),
            t.coordData d (3 * i + 2)⟩) := by
  induction fuel generalizing j res with
  | zero =>
    have h0 : (t._natoms + 2) / 3 - j = 0 := by omega
    simp [AmberNetcdf.coordsLoop, h0]
  | succ fuel ih =>
    unfold AmberNetcdf.coordsLoop
    by_cases hlt : 3 * j < t._natoms
    · have hnext : toUInt (((3 * j : Nat) : Int) + 3) = 3 * (j + 1) := by
        have hc : ((3 * j : Nat) : Int) + 3 = ((3 * (j + 1) : Nat) : Int) := by omega
        rw [hc, toUInt_natCast (by omega)]
      have hcnt : (t._natoms + 2) / 3 - j = ((t._natoms + 2) / 3 - (j + 1)) + 1 := by omega
      rw [if_pos hlt, hnext, ih (j + 1) _ (by omega), hcnt, List.range'_succ]
      simp
    · have h0 : (t._natoms + 2) / 3 - j = 0 := by omega
      rw [if_neg hlt, h0]
      simp

/-- The loop of `coords()` ends by its own test and returns one point for every
third index below `_natoms`: the points of the first `(N + 2) / 3` atoms. -/
theorem coords_eq {R : Type} (d : DoubleOps R) (t : AmberNetcdf R)
    (hN : t._natoms + 3 ≤ 4294967296) :
    t.coords d
      = (List.range ((t._natoms + 2) / 3)).map
          (fun i => ⟨t.coordData d (3 * i), t.coordData d (3 * i + 1),
            t.coordData d (3 * i + 2)⟩) := by
  unfold AmberNetcdf.coords
  have h := coordsLoop_eq d t hN t._natoms 0 [] (by omega)
  rw [Nat.mul_zero] at h
  rw [h, List.nil_append, Nat.sub_zero, List.range_eq_range']

/-- C16 (`coords()` returns `N` points): fails on the code.  For a frame source with
2 atoms and the coordinate array `1, 2, 3, 4, 5, 6` the loop `for (i = 0; i < _natoms;
i += 3)` runs once and `coords()` returns the single point `(1, 2, 3)`, where the claim
has the two points `(1, 2, 3)` and `(4, 5, 6)`. -/
theorem coords_returns_a_third_of_the_atoms :
    AmberNetcdf.coords gridDouble ⟨[1, 2, 3, 4, 5, 6], 2⟩ = [⟨1, 2, 3⟩]
    ∧ specCoords gridDouble ⟨[1, 2, 3, 4, 5, 6], 2⟩ = [⟨1, 2, 3⟩, ⟨4, 5, 6⟩]
    ∧ (AmberNetcdf.coords gridDouble ⟨[1, 2, 3, 4, 5, 6], 2⟩).length ≠ 2 := by
  decide

/-! ## Sorting the file names -/

theorem range_map_getD {α : Type} (l : List α) (a : α) :
    (List.range l.length).map (fun i => l.getD i a) = l := by
  apply List.ext_getElem
  · simp
  · intro i h1 h2
    simp [List.getElem?_eq_getElem h2]

theorem mapM_option_eq_some {α β : Type} (f : α → Option β) (g : α → β) (l : List α)
    (hf : ∀ a ∈ l, f a = some (g a)) : l.mapM f = some (l.map g) := by
  induction l with
  | nil => rfl
  | cons a l ih =>
    rw [List.mapM_cons, hf a (List.mem_cons_self _ _),
      ih (fun b hb => hf b (List.mem_cons_of_mem _ hb))]
    rfl

/-- With an extractor that succeeds on every name, `sortNamesByFormat` returns the
names of the sorted data. -/
theorem sortNamesByFormat_eq (std : StdSort SortDatum SortDatum.lt) (names : List String)
    (op : String → Option Nat) (key : String → Nat)
    (hn : names.length < 4294967296) (hop : ∀ s ∈ names, op s = some (key s)) :
    sortNamesByFormat std names op
      = some ((std.sort (names.map (fun s => SortDatum.mk s (key s)))).map (fun b => b.s)) := by
  have hlen : toUInt (names.length : Int) = names.length := by unfold toUInt; omega
  have hbound : (List.range names.length).mapM
      (fun i => (op (names.getD i "")).map (fun k => SortDatum.mk (names.getD i "") k))
      = some ((List.range names.length).map
          (fun i => SortDatum.mk (names.getD i "") (key (names.getD i "")))) := by
    apply mapM_option_eq_some
    intro i hi
    have hi' : i < names.length := List.mem_range.mp hi
    have hmem : names.getD i "" ∈ names := by
      rw [List.getD_eq_getElem names "" hi']
      exact List.getElem_mem hi'
    rw [hop _ hmem]; rfl
  have hmap : (List.range names.length).map
      (fun i => SortDatum.mk (names.getD i "") (key (names.getD i "")))
      = names.map (fun s => SortDatum.mk s (key s)) := by
    have h := congrArg (List.map (fun s => SortDatum.mk s (key s))) (range_map_getD names "")
    simpa [List.map_map, Function.comp] using h
  unfold sortNamesByFormat
  simp only [hlen, hbound, hmap]
  have hsl : (std.sort (names.map (fun s => SortDatum.mk s (key s)))).length = names.length := by
    rw [(std.perm _).length_eq, List.length_map]
  have h2 := congrArg (List.map (fun b : SortDatum => b.s))
    (range_map_getD (std.sort (names.map (fun s => SortDatum.mk s (key s)))) ⟨"", 0⟩)
  rw [hsl] at h2
  simpa [List.map_map, Function.comp] using h2

/-- C17: for every list of file names (fewer than `2^32`, the range of the `uint`
index) and every extractor that succeeds on all of them, with `key` the number it
extracts, `sortNamesByFormat` returns a list that is a permutation of the input list
and whose keys are in non-decreasing order, whatever `std::sort` does with equal
keys. -/
theorem sortNamesByFormat_sorted_perm (std : StdSort SortDatum SortDatum.lt)
    (names : List String) (op : String → Option Nat) (key : String → Nat)
    (hn : names.length < 4294967296) (hop : ∀ s ∈ names, op s = some (key s)) :
    ∃ sorted : List String,
      sortNamesByFormat std names op = some sorted
      ∧ sorted.Perm names
      ∧ (sorted.map key).Pairwise (fun a b => a ≤ b) := by
  refine ⟨_, sortNamesByFormat_eq std names op key hn hop, ?_, ?_⟩
  · have hp := (std.perm (names.map (fun s => SortDatum.mk s (key s)))).map (fun b => b.s)
    have hm : (names.map (fun s => SortDatum.mk s (key s))).map (fun b => b.s) = names := by
      rw [List.map_map]
      simp [Function.comp_def]
    rw [hm] at hp
    exact hp
  · rw [List.map_map, List.pairwise_map]
    have hs := std.sorted (names.map (fun s => SortDatum.mk s (key s)))
    have hmem : ∀ b ∈ std.sort (names.map (fun s => SortDatum.mk s (key s))),
        key b.s = b.n := by
      intro b hb
      have hb' := (std.perm _).subset hb
      obtain ⟨s, _, rfl⟩ := List.mem_map.mp hb'
      rfl
    refine List.Pairwise.imp_of_mem ?_ hs
    intro a b ha hb hab
    simp only [Function.comp, hmem a ha, hmem b hb]
    simpa [SortDatum.lt] using hab

/-- Instance of C17: three names with their length for number. -/
theorem sortNamesByFormat_sorted_perm_witness :
    ["t100", "t20", "t3"].length < 4294967296
    ∧ sortNamesByFormat insertionStdSort ["t100", "t20", "t3"] (fun s => some s.length)
        = some ["t3", "t20", "t100"]
    ∧ ∃ sorted : List String,
        sortNamesByFormat insertionStdSort ["t100", "t20", "t3"] (fun s => some s.length)
          = some sorted
        ∧ sorted.Perm ["t100", "t20", "t3"]
        ∧ (sorted.map (fun s => s.length)).Pairwise (fun a b => a ≤ b) :=
  ⟨by decide, by decide,
    sortNamesByFormat_sorted_perm insertionStdSort ["t100", "t20", "t3"]
      (fun s => some s.length) (fun s => s.length) (by decide)
      (by decide)⟩

/-! ## The recentering block -/

theorem recenterTraced_fst {R : Type} (d : DoubleOps R) (g : GroupOps R) (e : MergeEnv)
    (f : AtomicGroup R) : (recenterTraced d g e f).1 = recenter d g e f := by
  unfold recenterTraced recenter
  cases e.selection_split <;> rfl

theorem recenterTraced_snd {R : Type} (d : DoubleOps R) (g : GroupOps R) (e : MergeEnv)
    (f : AtomicGroup R) :
    (recenterTraced d g e f).2
      = (if e.selection_split then [GCoord.neg d (splitCentroid d g e f)] else [])
        ++ [GCoord.neg d (passCentroid d g e (afterSplit d g e f)),
            GCoord.neg d (passCentroid d g e (afterFirstPass d g e f)),
            GCoord.neg d (passCentroid d g e (afterFirstPass d g e f))] := by
  unfold recenterTraced afterFirstPass afterSplit
  cases e.selection_split <;> rfl

theorem passCentroid_xyz {R : Type} (d : DoubleOps R) (g : GroupOps R) (e : MergeEnv)
    (hfull : e.full_recenter = false) (s : AtomicGroup R) :
    passCentroid d g e s
      = specCenterVector d e.xy_recenter e.z_recenter (g.centroid e.xy_center s)
          (g.centroid e.z_center s) := by
  unfold passCentroid specCenterVector GCoord.origin
  cases hxy : e.xy_recenter <;> cases hz : e.z_recenter <;> simp [hfull]

theorem splitCentroid_xyz {R : Type} (d : DoubleOps R) (g : GroupOps R) (e : MergeEnv)
    (hfull : e.full_recenter = false) (s : AtomicGroup R) :
    splitCentroid d g e s
      = specCenterVector d e.xy_recenter e.z_recenter (g.firstCoords e.xy_center s)
          (g.firstCoords e.z_center s) := by
  unfold splitCentroid specCenterVector GCoord.origin
  cases hxy : e.xy_recenter <;> cases hz : e.z_recenter <;> simp [hfull]

theorem mem_trace_cases {α : Type} (split : Bool) (v0 a b c t : α)
    (ht : t ∈ (if split then [v0] else []) ++ [a, b, c]) :
    t = v0 ∨ t = a ∨ t = b ∨ t = c := by
  rcases List.mem_append.mp ht with h | h
  · cases split
    · simp at h
    · left; simpa using h
  · right; simpa using h

/-- In full centering mode without the pre-pass and without fix-imaging the frame
written is the frame of the two centre-then-reimage passes translated once more by the
negated centroid of the second pass (line 618). -/
theorem processFrame_full_center {R : Type} (d : DoubleOps R) (g : GroupOps R)
    (e : MergeEnv) (f : AtomicGroup R) (hfull : e.full_recenter = true)
    (hsplit : e.selection_split = false) (hfix : e.reimage_by_molecule = false) :
    processFrame d g e f
      = g.translate
          (GCoord.neg d (g.centroid e.center
            (reimageAll g e.molecules
              (g.translate (GCoord.neg d (g.centroid e.center f)) f))))
          (specTwoPass d g e.center e.molecules f) := by
  simp [processFrame, recenter, passCentroid, specTwoPass, hfull, hsplit, hfix]

/-- C18 (the frame written is `R(T(-c2, R(T(-c1, f))))`, two passes and no other change
of coordinates): fails on the code.  For three one-atom molecules at x = 0, 0, 9 in a
box of extent 10, all three selected for centering, the two passes give the atoms at
x = 1, 1, 0 (`c1 = 3`, `c2 = -4`); the code translates the system by `-c2` a second
time after the second reimaging (line 618) and writes the atoms at x = 5, 5, 4. -/
theorem full_centering_translates_a_third_time :
    centerEnv.full_recenter = true ∧ centerEnv.selection_split = false
    ∧ centerEnv.reimage_by_molecule = false
    ∧ (specTwoPass gridDouble boxGroup centerEnv.center centerEnv.molecules threeAtoms).atoms
        = [⟨1, 0, 0⟩, ⟨1, 0, 0⟩, ⟨0, 0, 0⟩]
    ∧ (processFrame gridDouble boxGroup centerEnv threeAtoms).atoms
        = [⟨5, 0, 0⟩, ⟨5, 0, 0⟩, ⟨4, 0, 0⟩]
    ∧ processFrame gridDouble boxGroup centerEnv threeAtoms
        ≠ specTwoPass gridDouble boxGroup centerEnv.center centerEnv.molecules threeAtoms := by
  decide

/-- What the recentering block does in xy/z centering mode (no full centering
selection): the arguments of its `system.translate` calls are, in order: with
selection-is-split on, the negation of (x and y of the first atom of the xy-selection,
z of the first atom of the z-selection); then the negation of (x and y of the centroid
of the xy-selection, z of the centroid of the z-selection) taken after the pre-pass,
the same taken after the first pass, and that last vector once more (line 618), where
the system it is applied to is the one after the second pass; a component is 0 where
its selection is not configured.  So without a z-selection no translation has a z
component other than `-0`, and without an xy-selection none has an x or y component
other than `-0`. -/
theorem xyz_translations {R : Type} (d : DoubleOps R) (g : GroupOps R) (e : MergeEnv)
    (f : AtomicGroup R) (hfull : e.full_recenter = false) :
    (recenterTraced d g e f).1 = recenter d g e f
    ∧ (recenterTraced d g e f).2
        = (if e.selection_split then
              [GCoord.neg d (specCenterVector d e.xy_recenter e.z_recenter
                (g.firstCoords e.xy_center f) (g.firstCoords e.z_center f))]
            else [])
          ++ [GCoord.neg d (specCenterVector d e.xy_recenter e.z_recenter
                (g.centroid e.xy_center (afterSplit d g e f))
                (g.centroid e.z_center (afterSplit d g e f))),
              GCoord.neg d (specCenterVector d e.xy_recenter e.z_recenter
                (g.centroid e.xy_center (afterFirstPass d g e f))
                (g.centroid e.z_center (afterFirstPass d g e f))),
              GCoord.neg d (specCenterVector d e.xy_recenter e.z_recenter
                (g.centroid e.xy_center (afterFirstPass d g e f))
                (g.centroid e.z_center (afterFirstPass d g e f)))]
    ∧ (e.z_recenter = false → ∀ t ∈ (recenterTraced d g e f).2, t.z = d.neg d.zero)
    ∧ (e.xy_recenter = false →
        ∀ t ∈ (recenterTraced d g e f).2, t.x = d.neg d.zero ∧ t.y = d.neg d.zero) := by
  have hlist : (recenterTraced d g e f).2
      = (if e.selection_split then
            [GCoord.neg d (specCenterVector d e.xy_recenter e.z_recenter
              (g.firstCoords e.xy_center f) (g.firstCoords e.z_center f))]
          else [])
        ++ [GCoord.neg d (specCenterVector d e.xy_recenter e.z_recenter
              (g.centroid e.xy_center (afterSplit d g e f))
              (g.centroid e.z_center (afterSplit d g e f))),
            GCoord.neg d (specCenterVector d e.xy_recenter e.z_recenter
              (g.centroid e.xy_center (afterFirstPass d g e f))
              (g.centroid e.z_center (afterFirstPass d g e f))),
            GCoord.neg d (specCenterVector d e.xy_recenter e.z_recenter
              (g.centroid e.xy_center (afterFirstPass d g e f))
              (g.centroid e.z_center (afterFirstPass d g e f)))] := by
    rw [recenterTraced_snd, splitCentroid_xyz d g e hfull, passCentroid_xyz d g e hfull,
      passCentroid_xyz d g e hfull]
  refine ⟨recenterTraced_fst d g e f, hlist, ?_, ?_⟩
  · intro hz t ht
    rw [hlist, hz] at ht
    have key : ∀ p q : GCoord R,
        (GCoord.neg d (specCenterVector d e.xy_recenter false p q)).z = d.neg d.zero :=
      fun _ _ => rfl
    rcases mem_trace_cases _ _ _ _ _ _ ht with h | h | h | h <;> rw [h] <;> exact key _ _
  · intro hxy t ht
    rw [hlist, hxy] at ht
    have key : ∀ p q : GCoord R,
        (GCoord.neg d (specCenterVector d false e.z_recenter p q)).x = d.neg d.zero
        ∧ (GCoord.neg d (specCenterVector d false e.z_recenter p q)).y = d.neg d.zero :=
      fun _ _ => ⟨rfl, rfl⟩
    rcases mem_trace_cases _ _ _ _ _ _ ht with h | h | h | h <;> rw [h] <;> exact key _ _

/-- The recentering block ends with the translation of line 618 applied to the system
after the second pass, by the vector of the second pass. -/
theorem recenter_eq_last_translate {R : Type} (d : DoubleOps R) (g : GroupOps R)
    (e : MergeEnv) (f : AtomicGroup R) :
    recenter d g e f
      = g.translate (GCoord.neg d (passCentroid d g e (afterFirstPass d g e f)))
          (afterSecondPass d g e f) := by
  unfold recenter afterSecondPass afterFirstPass afterSplit
  cases e.selection_split <;> rfl

/-- C19 (in xy/z centering mode every whole-system translation is the negation of the
vector made of x, y of the xy-selection's centroid and z of the z-selection's
centroid): fails on the code for the translation of line 618.  With an xy-selection of
three one-atom molecules at x = 0, 0, 27 in a box of extent 30 the translations are
`(-9, 0, 0)`, `(10, 0, 0)` and `(10, 0, 0)`: the last one repeats the vector of the
second pass, while the centroid of the xy-selection in the system it is applied to is
`(0, 0, 0)`; the frame written has the atoms at x = 11, 11, 8 and not at 1, 1, -2. -/
theorem last_translation_uses_stale_centroid :
    xySelEnv.full_recenter = false ∧ xySelEnv.xy_recenter = true
    ∧ (recenterTraced gridDouble boxGroup xySelEnv wideAtoms).2
        = [⟨-9, 0, 0⟩, ⟨10, 0, 0⟩, ⟨10, 0, 0⟩]
    ∧ (afterSecondPass gridDouble boxGroup xySelEnv wideAtoms).atoms
        = [⟨1, 0, 0⟩, ⟨1, 0, 0⟩, ⟨-2, 0, 0⟩]
    ∧ GCoord.neg gridDouble
          (specCenterVector gridDouble xySelEnv.xy_recenter xySelEnv.z_recenter
            (boxGroup.centroid xySelEnv.xy_center
              (afterSecondPass gridDouble boxGroup xySelEnv wideAtoms))
            (boxGroup.centroid xySelEnv.z_center
              (afterSecondPass gridDouble boxGroup xySelEnv wideAtoms)))
        = ⟨0, 0, 0⟩
    ∧ (processFrame gridDouble boxGroup xySelEnv wideAtoms).atoms
        = [⟨11, 0, 0⟩, ⟨11, 0, 0⟩, ⟨8, 0, 0⟩] := by
  decide

end Loos
